import Mathlib

/-!
# mipspro-suppress: the stderr-filtering launch wrapper

A shallow embedding of `mipspro-suppress.c` (one function, `main`) and the
properties of its resolver, launcher, line filter and reaper.

Conventions of the embedding

* A C string is the list of its characters before the terminating NUL
  (`CStr`); a possibly-NULL `char *` is an `Option CStr`.
* The `int` flags `print` and `first` are `Int`s, tested with `== 0` and
  `== 1` exactly as in the source.
* Everything `main` obtains from the operating system or the C library (the
  result of `basename`, `access`, `pipe`, `fork`, the bytes in the pipe, the
  wait status, ...) is a field of `World`; values fixed by the platform
  headers (`PATH_MAX`, `EXIT_FAILURE`, the `W*` status macros) are fields of
  `Sys`.
* `main` returns the ordered list of calls it made (`Event`) and the way the
  process ended (`Outcome`).
* The filter loop is given twice: `filterStream` follows the source call by
  call on the characters in the pipe, `filterLoop` is the same loop on the
  sequence of lines that `fgets` delivers (`readLines`);
  `filterStream_eq_filterLoop` shows that they agree.
-/

namespace MipsproSuppress

/-! ## Strings and the three fixed messages -/

/-- A C string: the characters before the terminating NUL. -/
abbrev CStr := List Char

/-- The macro `MSG_CANNOT_FIND_SERVER` (source lines 11-12). -/
def MSG_CANNOT_FIND_SERVER : CStr :=
  "Cannot find SERVER hostname in network database (-14,7:2) No such file or directory".toList

/-- The macro `MSG_NO_SUCH_FEATURE` (source line 13). -/
def MSG_NO_SUCH_FEATURE : CStr :=
  "No such feature exists (-5,116)".toList

/-- The macro `MSG_GRAPHICS_SUPPORT_CUSTOMER` (source lines 14-15). -/
def MSG_GRAPHICS_SUPPORT_CUSTOMER : CStr :=
  "Graphics support customer then contact your local support provider.".toList

/-! ## Reading the pipe: `fgets`, `strlen`, the newline strip -/

/-- The character loop of `fgets`: store at most `room` characters, stopping
after a newline or at end of stream.  Returns the characters stored and the
rest of the stream. -/
def fgetsChars : Nat → List Char → List Char × List Char
  | 0, s => ([], s)
  | _ + 1, [] => ([], [])
  | room + 1, c :: s =>
    if c = '\n' then ([c], s)
    else ((c :: (fgetsChars room s).1), (fgetsChars room s).2)

/-- The call `fgets(buf, size, fp)` on a stream with the characters `s` left:
`none` is the NULL returned at end of stream with nothing read; otherwise at
most `size - 1` characters are stored (the last cell holds the NUL). -/
def fgets (size : Nat) (s : List Char) : Option (List Char × List Char) :=
  match s with
  | [] => none
  | _ :: _ => some (fgetsChars (size - 1) s)

/-- The buffer seen as a C string: `strlen`, `strcmp` and `%s` all stop at the
first NUL character. -/
def cstr (buf : List Char) : CStr :=
  buf.takeWhile (fun c => c != '\x00')

/-- Source lines 127-130:
`len = strlen(line); if (len > 0 && line[len - 1] == '\n') line[len - 1] = '\0';` -/
def stripNewline (line : CStr) : CStr :=
  if line.length > 0 ∧ line.getLast? = some '\n' then line.dropLast else line

/-- The successive values of `line` that the calls `fgets(line, sizeof(line), fp)`
with `char line[1024]` deliver, each after the newline strip of lines 127-130,
until `fgets` returns NULL. -/
def readLines (s : List Char) : List CStr :=
  match _h : fgets 1024 s with
  | none => []
  | some (buf, rest) => stripNewline (cstr buf) :: readLines rest
termination_by s.length
decreasing_by
  have key : ∀ (room : Nat) (u : List Char), (fgetsChars room u).2.length ≤ u.length := by
    intro room
    induction room with
    | zero => intro u; simp [fgetsChars]
    | succ k ih =>
      intro u
      cases u with
      | nil => simp [fgetsChars]
      | cons c u =>
        by_cases hc : c = '\n'
        · simp [fgetsChars, hc]
        · have := ih u
          simp [fgetsChars, hc]; omega
  cases s with
  | nil => simp [fgets] at _h
  | cons c u =>
    have h2 : fgetsChars 1023 (c :: u) = (buf, rest) := by simpa [fgets] using _h
    have h3 : (fgetsChars 1023 (c :: u)).2 = rest := by rw [h2]
    have h4 := key 1022 u
    by_cases hc : c = '\n'
    · simp [fgetsChars, hc] at h3
      simp [← h3]
    · simp [fgetsChars, hc] at h3
      simp only [List.length_cons, ← h3]
      omega

/-- What `fprintf(stderr, "%s\n", line)` writes for each emitted line. -/
def render (emitted : List CStr) : List Char :=
  emitted.flatMap (fun l => l ++ ['\n'])

/-! ## The filter loop (source lines 105-106, 125-155) -/

/-- The two `int` flags of the filter. -/
structure Flags where
  print : Int
  first : Int
deriving DecidableEq, Repr

/-- The flags at loop entry: `int print = 1; int first = 0;`. -/
def initFlags : Flags := ⟨1, 0⟩

/-- How the `while` loop was left. -/
inductive LoopEnd where
  /-- `fgets` in the loop condition returned NULL -/
  | eof
  /-- `fgets` after the closing marker returned NULL: `break` -/
  | brk
  /-- `fprintf` returned a negative value: `perror`, `fclose`, `exit(EXIT_FAILURE)` -/
  | writeFail
deriving DecidableEq, Repr

/-- What a run of the loop did. -/
structure LoopResult where
  /-- lines written to stderr by `fprintf(stderr, "%s\n", line)`, in order -/
  emitted : List CStr
  /-- the flags at the end of each iteration (also one left by `break` or `exit`), in order -/
  flags : List Flags
  /-- the flags when the loop was left -/
  final : Flags
  /-- the way the loop was left -/
  stop : LoopEnd
deriving DecidableEq, Repr

/-- Source lines 132-138: the trigger test, made only while `first == 0`. -/
def scanTrigger (fl : Flags) (line : CStr) : Flags :=
  if fl.first = 0 then
    if line = MSG_CANNOT_FIND_SERVER ∨ line = MSG_NO_SUCH_FEATURE then
      { print := 0, first := 1 }
    else fl
  else fl

/-- The `while (fgets(...) != NULL)` loop of the parent, seen on the sequence
of lines: `lines` are the values of `line` that the successive `fgets` calls
deliver (newline stripped); when they are used up `fgets` returns NULL.
`wr k` tells whether the `k`-th `fprintf(stderr, "%s\n", line)` of the loop
succeeds, `n` is the number of `fprintf` calls made so far. -/
def filterLoop (wr : Nat → Bool) : List CStr → Flags → Nat → LoopResult
  | [], fl, _ => { emitted := [], flags := [], final := fl, stop := .eof }
  | line :: rest, fl, n =>
    if (scanTrigger fl line).print = 1 then
      if wr n then
        let r := filterLoop wr rest (scanTrigger fl line) (n + 1)
        { r with emitted := line :: r.emitted, flags := scanTrigger fl line :: r.flags }
      else
        { emitted := [], flags := [scanTrigger fl line], final := scanTrigger fl line,
          stop := .writeFail }
    else if line = MSG_GRAPHICS_SUPPORT_CUSTOMER then
      match rest with
      | [] =>
        { emitted := [], flags := [scanTrigger fl line], final := scanTrigger fl line,
          stop := .brk }
      | _ :: rest2 =>
        let r := filterLoop wr rest2 { scanTrigger fl line with print := 1 } n
        { r with flags := { scanTrigger fl line with print := 1 } :: r.flags }
    else
      let r := filterLoop wr rest (scanTrigger fl line) n
      { r with flags := scanTrigger fl line :: r.flags }

/-- The loop of source lines 125-155 transcribed call by call on the characters
`s` still in the pipe: both `fgets` calls (loop condition, and the one after
the closing marker) are made on the stream where the source makes them. -/
def filterStream (wr : Nat → Bool) (s : List Char) (fl : Flags) (n : Nat) : LoopResult :=
  match _h : fgets 1024 s with
  | none => { emitted := [], flags := [], final := fl, stop := .eof }
  | some (buf, rest) =>
    if (scanTrigger fl (stripNewline (cstr buf))).print = 1 then
      if wr n then
        let r := filterStream wr rest (scanTrigger fl (stripNewline (cstr buf))) (n + 1)
        { r with
          emitted := stripNewline (cstr buf) :: r.emitted,
          flags := scanTrigger fl (stripNewline (cstr buf)) :: r.flags }
      else
        { emitted := [], flags := [scanTrigger fl (stripNewline (cstr buf))],
          final := scanTrigger fl (stripNewline (cstr buf)), stop := .writeFail }
    else if stripNewline (cstr buf) = MSG_GRAPHICS_SUPPORT_CUSTOMER then
      match _h2 : fgets 1024 rest with
      | none =>
        { emitted := [], flags := [scanTrigger fl (stripNewline (cstr buf))],
          final := scanTrigger fl (stripNewline (cstr buf)), stop := .brk }
      | some (_, rest2) =>
        let r := filterStream wr rest2
          { scanTrigger fl (stripNewline (cstr buf)) with print := 1 } n
        { r with
          flags := { scanTrigger fl (stripNewline (cstr buf)) with print := 1 } :: r.flags }
    else
      let r := filterStream wr rest (scanTrigger fl (stripNewline (cstr buf))) n
      { r with flags := scanTrigger fl (stripNewline (cstr buf)) :: r.flags }
termination_by s.length
decreasing_by
  all_goals
    have key : ∀ (u v w : List Char), fgets 1024 u = some (v, w) → w.length < u.length := by
      intro u v w hu
      have len : ∀ (room : Nat) (x : List Char),
          (fgetsChars room x).2.length ≤ x.length := by
        intro room
        induction room with
        | zero => intro x; simp [fgetsChars]
        | succ k ih =>
          intro x
          cases x with
          | nil => simp [fgetsChars]
          | cons c x =>
            by_cases hc : c = '\n'
            · simp [fgetsChars, hc]
            · have := ih x
              simp [fgetsChars, hc]; omega
      cases u with
      | nil => simp [fgets] at hu
      | cons c x =>
        have h2 : fgetsChars 1023 (c :: x) = (v, w) := by simpa [fgets] using hu
        have h3 : (fgetsChars 1023 (c :: x)).2 = w := by rw [h2]
        have h4 := len 1022 x
        by_cases hc : c = '\n'
        · simp [fgetsChars, hc] at h3
          simp [← h3]
        · simp [fgetsChars, hc] at h3
          simp only [List.length_cons, ← h3]
          omega
    first
      | exact key _ _ _ _h
      | exact Nat.lt_trans (key _ _ _ _h2) (key _ _ _ _h)

/-- The number of PASSING to SUPPRESSING transitions (`print == 1` followed by
`print != 1`) along a sequence of successive flag values. -/
def enterCount : List Flags → Nat
  | a :: b :: rest => (if a.print = 1 ∧ b.print ≠ 1 then 1 else 0) + enterCount (b :: rest)
  | _ => 0

/-! ## The platform and the world -/

/-- What the system headers fix: `PATH_MAX` of `<limits.h>`, `EXIT_FAILURE` of
`<stdlib.h>` and the status macros of `<sys/wait.h>`. -/
structure Sys where
  PATH_MAX : Nat
  EXIT_FAILURE : Int
  WIFEXITED : Int → Bool
  WEXITSTATUS : Int → Int
  WIFSIGNALED : Int → Bool
  WTERMSIG : Int → Int

/-- The values of a Linux/glibc system: `PATH_MAX` is 4096, `EXIT_FAILURE` is 1,
`WIFEXITED(s)` is `(s & 0x7f) == 0`, `WEXITSTATUS(s)` is `(s & 0xff00) >> 8`,
`WIFSIGNALED(s)` is `((signed char) ((s & 0x7f) + 1) >> 1) > 0` and
`WTERMSIG(s)` is `s & 0x7f`. -/
def linux : Sys where
  PATH_MAX := 4096
  EXIT_FAILURE := 1
  WIFEXITED := fun s => s % 128 == 0
  WEXITSTATUS := fun s => (s / 256) % 256
  WIFSIGNALED := fun s => decide (1 ≤ s % 128 ∧ s % 128 ≤ 126)
  WTERMSIG := fun s => s % 128

/-- The three results of `fork()`: -1, 0 (in the child), the child pid (in the parent). -/
inductive ForkResult where
  | failed
  | child
  | parent
deriving DecidableEq, Repr

/-- Everything one run of `main` receives from its caller, the C library and
the operating system. -/
structure World where
  /-- the argument vector; `argc` is its length -/
  argv : List CStr
  /-- the result of `basename(argv[0])`, `none` for NULL -/
  basename : Option CStr
  /-- whether `access(path, X_OK)` returns 0 -/
  access : CStr → Bool
  /-- whether `pipe(pipefd)` succeeds -/
  pipeOk : Bool
  /-- the result of `fork()` in the process that is followed -/
  fork : ForkResult
  /-- child: whether `close(pipefd[0])` succeeds -/
  childCloseReadOk : Bool
  /-- child: whether `dup2(pipefd[1], STDERR_FILENO)` succeeds -/
  dup2Ok : Bool
  /-- child: whether `close(pipefd[1])` succeeds -/
  childCloseWriteOk : Bool
  /-- child: the result of `malloc`: `none` for NULL, else the (arbitrary)
  initial content of each cell of the block -/
  malloc : Option (Nat → Option CStr)
  /-- child: whether `execv` replaces the process image (it returns only on failure) -/
  execvOk : Bool
  /-- parent: whether `close(pipefd[1])` succeeds -/
  parentCloseWriteOk : Bool
  /-- parent: whether `fdopen(pipefd[0], "r")` succeeds -/
  fdopenOk : Bool
  /-- parent: the characters the child wrote to the pipe and `fgets` delivers -/
  pipeData : List Char
  /-- parent: whether the `fgets` that returns NULL does so on a read error
  (`ferror(fp)` nonzero) instead of end of stream -/
  readError : Bool
  /-- parent: whether the `k`-th `fprintf(stderr, "%s\n", line)` of the loop succeeds -/
  stderrOk : Nat → Bool
  /-- parent: whether `fclose(fp)` succeeds -/
  fcloseOk : Bool
  /-- parent: whether `waitpid(pid, &status, 0)` succeeds -/
  waitpidOk : Bool
  /-- parent: the wait status `waitpid` stores -/
  status : Int

/-- The diagnostics the wrapper itself prints (`fprintf(stderr, ...)`, `perror`). -/
inductive Diag where
  | basenameNull
  | pathTooLong
  | notExecutable (path : CStr)
  | pipeFailed
  | forkFailed
  | childCloseRead
  | childDup2
  | childCloseWrite
  | mallocFailed
  | execFailed (path : CStr)
  | parentCloseWrite
  | fdopenFailed
  | writeFailed
  | readFailed
  | fcloseFailed
  | waitpidFailed
  | signalled (sig : Int)
  | abnormal
deriving DecidableEq, Repr

/-- The calls `main` makes, as far as the properties below speak of them. -/
inductive Event where
  /-- a diagnostic of the wrapper itself -/
  | diag (d : Diag)
  /-- `access(path, X_OK)` -/
  | access (path : CStr)
  /-- `pipe(pipefd)` -/
  | pipe
  /-- `fork()` -/
  | fork
  /-- `execv(path, argv)`; `none` in `argv` is a NULL pointer -/
  | execv (path : CStr) (argv : List (Option CStr))
  /-- a successful `fprintf(stderr, "%s\n", line)` of the filter loop -/
  | emit (line : CStr)
  /-- `waitpid(pid, &status, 0)` -/
  | waitpid
deriving DecidableEq, Repr

/-- How the process ends. -/
inductive Outcome where
  /-- a call of `exit(code)` -/
  | exit (code : Int)
  /-- `return code;` from `main` -/
  | ret (code : Int)
  /-- `execv` succeeded: the process now runs the target -/
  | exec
deriving DecidableEq, Repr

/-- A run of `main`: the calls made, in order, and the way it ended. -/
structure Run where
  trace : List Event
  outcome : Outcome
deriving DecidableEq, Repr

/-! ## Resolver (source lines 30-36) -/

/-- The install directory, the literal `"/usr/bin/"`. -/
def usrBin : CStr := "/usr/bin/".toList

/-- Source lines 32-36: `none` is the path-too-long exit, otherwise the
content `sprintf(cmd_path, "/usr/bin/%s", command)` leaves in `cmd_path`. -/
def resolve (sys : Sys) (command : CStr) : Option CStr :=
  if usrBin.length + command.length ≥ sys.PATH_MAX then none
  else some (usrBin ++ command)

/-! ## Launcher, child side (source lines 81-92) -/

/-- The loop `for (i = 1; i < argc; i++) new_argv[i] = argv[i];`: the
assignments for `i = 1, ..., argc - 1`, in this order. -/
def copyArgs (argv : List CStr) (new_argv : List (Option CStr)) : List (Option CStr) :=
  (List.range' 1 (argv.length - 1)).foldl (fun a i => a.set i argv[i]?) new_argv

/-- Source lines 82-92: the block of `argc + 1` cells that `malloc` returned,
with initial content `block`, after `new_argv[0] = cmd_path`, the copy loop
and `new_argv[argc] = NULL`. -/
def buildArgv (block : Nat → Option CStr) (cmd_path : CStr) (argv : List CStr) :
    List (Option CStr) :=
  let new_argv := (List.range (argv.length + 1)).map block
  let new_argv := new_argv.set 0 (some cmd_path)
  let new_argv := copyArgs argv new_argv
  new_argv.set argv.length none

/-- The child branch of `main` (source lines 58-100). -/
def child (sys : Sys) (w : World) (cmd_path : CStr) : Run :=
  if !w.childCloseReadOk then ⟨[.diag .childCloseRead], .exit sys.EXIT_FAILURE⟩
  else if !w.dup2Ok then ⟨[.diag .childDup2], .exit sys.EXIT_FAILURE⟩
  else if !w.childCloseWriteOk then ⟨[.diag .childCloseWrite], .exit sys.EXIT_FAILURE⟩
  else
    match w.malloc with
    | none => ⟨[.diag .mallocFailed], .exit sys.EXIT_FAILURE⟩
    | some block =>
      let new_argv := buildArgv block cmd_path w.argv
      if w.execvOk then ⟨[.execv cmd_path new_argv], .exec⟩
      else ⟨[.execv cmd_path new_argv, .diag (.execFailed cmd_path)], .exit sys.EXIT_FAILURE⟩

/-! ## Reaper (source lines 174-183) -/

/-- The status decoding at the end of `main`. -/
def reap (sys : Sys) (status : Int) : Run :=
  if sys.WIFEXITED status then ⟨[], .ret (sys.WEXITSTATUS status)⟩
  else if sys.WIFSIGNALED status then
    ⟨[.diag (.signalled (sys.WTERMSIG status))], .exit sys.EXIT_FAILURE⟩
  else ⟨[.diag .abnormal], .exit sys.EXIT_FAILURE⟩

/-! ## Parent branch and `main` -/

/-- The parent branch of `main` (source lines 102-183). -/
def parent (sys : Sys) (w : World) : Run :=
  if !w.parentCloseWriteOk then ⟨[.diag .parentCloseWrite], .exit sys.EXIT_FAILURE⟩
  else if !w.fdopenOk then ⟨[.diag .fdopenFailed], .exit sys.EXIT_FAILURE⟩
  else
    let r := filterStream w.stderrOk w.pipeData initFlags 0
    let out := r.emitted.map Event.emit
    if r.stop = .writeFail then ⟨out ++ [.diag .writeFailed], .exit sys.EXIT_FAILURE⟩
    else if w.readError then ⟨out ++ [.diag .readFailed], .exit sys.EXIT_FAILURE⟩
    else if !w.fcloseOk then ⟨out ++ [.diag .fcloseFailed], .exit sys.EXIT_FAILURE⟩
    else if !w.waitpidOk then
      ⟨out ++ [.waitpid, .diag .waitpidFailed], .exit sys.EXIT_FAILURE⟩
    else
      ⟨out ++ [.waitpid] ++ (reap sys w.status).trace, (reap sys w.status).outcome⟩

/-- The function `main` (source lines 17-185). -/
def main (sys : Sys) (w : World) : Run :=
  match w.basename with
  | none => ⟨[.diag .basenameNull], .exit sys.EXIT_FAILURE⟩
  | some command =>
    match resolve sys command with
    | none => ⟨[.diag .pathTooLong], .exit sys.EXIT_FAILURE⟩
    | some cmd_path =>
      if !w.access cmd_path then
        ⟨[.access cmd_path, .diag (.notExecutable cmd_path)], .exit sys.EXIT_FAILURE⟩
      else if !w.pipeOk then
        ⟨[.access cmd_path, .pipe, .diag .pipeFailed], .exit sys.EXIT_FAILURE⟩
      else
        match w.fork with
        | .failed =>
          ⟨[.access cmd_path, .pipe, .fork, .diag .forkFailed], .exit sys.EXIT_FAILURE⟩
        | .child =>
          ⟨[.access cmd_path, .pipe, .fork] ++ (child sys w cmd_path).trace,
            (child sys w cmd_path).outcome⟩
        | .parent =>
          ⟨[.access cmd_path, .pipe, .fork] ++ (parent sys w).trace, (parent sys w).outcome⟩

/-! ## A sample run -/

/-- A run in which every call succeeds, the follower is the parent, the child
writes nothing and exits with code 0. -/
def quietWorld : World where
  argv := ["cc".toList, "-c".toList, "x.c".toList]
  basename := some "cc".toList
  access := fun _ => true
  pipeOk := true
  fork := .parent
  childCloseReadOk := true
  dup2Ok := true
  childCloseWriteOk := true
  malloc := some (fun _ => none)
  execvOk := true
  parentCloseWriteOk := true
  fdopenOk := true
  pipeData := []
  readError := false
  stderrOk := fun _ => true
  fcloseOk := true
  waitpidOk := true
  status := 0

/-! ## Lemmas on reading the pipe -/

theorem fgetsChars_length (room : Nat) (s : List Char) :
    (fgetsChars room s).1.length + (fgetsChars room s).2.length = s.length := by
  induction room generalizing s with
  | zero => simp [fgetsChars]
  | succ n ih =>
    cases s with
    | nil => simp [fgetsChars]
    | cons c s =>
      by_cases hc : c = '\n'
      · simp [fgetsChars, hc]; omega
      · have := ih s
        simp [fgetsChars, hc]; omega

theorem fgetsChars_rest_lt (room : Nat) (c : Char) (s : List Char) :
    (fgetsChars (room + 1) (c :: s)).2.length < (c :: s).length := by
  by_cases hc : c = '\n'
  · simp [fgetsChars, hc]
  · have := fgetsChars_length room s
    simp [fgetsChars, hc]; omega

theorem readLines_nil : readLines [] = [] := by
  rw [readLines]; rfl

theorem readLines_cons (c : Char) (t : List Char) :
    readLines (c :: t) =
      stripNewline (cstr (fgetsChars 1023 (c :: t)).1) ::
        readLines (fgetsChars 1023 (c :: t)).2 := by
  rw [readLines]
  rfl

/-! ## Lemmas on the filter loop -/

/-- One iteration of the loop, for any rest of the input. -/
theorem filterLoop_cons (wr : Nat → Bool) (line : CStr) (rest : List CStr) (fl : Flags)
    (n : Nat) :
    filterLoop wr (line :: rest) fl n =
      if (scanTrigger fl line).print = 1 then
        if wr n then
          { filterLoop wr rest (scanTrigger fl line) (n + 1) with
            emitted := line :: (filterLoop wr rest (scanTrigger fl line) (n + 1)).emitted,
            flags := scanTrigger fl line ::
              (filterLoop wr rest (scanTrigger fl line) (n + 1)).flags }
        else
          { emitted := [], flags := [scanTrigger fl line], final := scanTrigger fl line,
            stop := .writeFail }
      else if line = MSG_GRAPHICS_SUPPORT_CUSTOMER then
        match rest with
        | [] =>
          { emitted := [], flags := [scanTrigger fl line], final := scanTrigger fl line,
            stop := .brk }
        | _ :: rest2 =>
          { filterLoop wr rest2 { scanTrigger fl line with print := 1 } n with
            flags := { scanTrigger fl line with print := 1 } ::
              (filterLoop wr rest2 { scanTrigger fl line with print := 1 } n).flags }
      else
        { filterLoop wr rest (scanTrigger fl line) n with
          flags := scanTrigger fl line :: (filterLoop wr rest (scanTrigger fl line) n).flags } := by
  cases rest <;> rfl

theorem trigger_ne_marker (t : CStr)
    (ht : t = MSG_CANNOT_FIND_SERVER ∨ t = MSG_NO_SUCH_FEATURE) :
    t ≠ MSG_GRAPHICS_SUPPORT_CUSTOMER := by
  rcases ht with rfl | rfl <;> decide

theorem scanTrigger_of_first_ne_zero (fl : Flags) (line : CStr) (h : fl.first ≠ 0) :
    scanTrigger fl line = fl := by
  simp [scanTrigger, h]

theorem scanTrigger_of_not_trigger (fl : Flags) (line : CStr)
    (h : line ≠ MSG_CANNOT_FIND_SERVER ∧ line ≠ MSG_NO_SUCH_FEATURE) :
    scanTrigger fl line = fl := by
  simp [scanTrigger, h.1, h.2]

theorem scanTrigger_of_trigger (line : CStr)
    (h : line = MSG_CANNOT_FIND_SERVER ∨ line = MSG_NO_SUCH_FEATURE) :
    scanTrigger initFlags line = ⟨0, 1⟩ := by
  simp [scanTrigger, initFlags, h]

/-- In the state `print == 1`, `first == 1` every line is written and the state stays. -/
theorem filterLoop_passing (wr : Nat → Bool) (lines : List CStr) (n : Nat) :
    (∀ f ∈ (filterLoop wr lines ⟨1, 1⟩ n).flags, f = ⟨1, 1⟩) ∧
    (filterLoop wr lines ⟨1, 1⟩ n).final = ⟨1, 1⟩ ∧
    ((∀ k, wr k = true) →
      (filterLoop wr lines ⟨1, 1⟩ n).emitted = lines ∧
      (filterLoop wr lines ⟨1, 1⟩ n).flags = List.replicate lines.length ⟨1, 1⟩ ∧
      (filterLoop wr lines ⟨1, 1⟩ n).stop = .eof) := by
  induction lines generalizing n with
  | nil => simp [filterLoop]
  | cons l rest ih =>
    have hs : scanTrigger ⟨1, 1⟩ l = ⟨1, 1⟩ := scanTrigger_of_first_ne_zero _ _ (by decide)
    obtain ⟨h1, h2, h3⟩ := ih (n + 1)
    by_cases hw : wr n = true
    · refine ⟨?_, ?_, ?_⟩
      · simpa [filterLoop_cons, hs, hw] using h1
      · simpa [filterLoop_cons, hs, hw] using h2
      · intro hall
        obtain ⟨e1, e2, e3⟩ := h3 hall
        simp [filterLoop_cons, hs, hw, e1, e2, e3, List.replicate_succ]
    · refine ⟨?_, ?_, ?_⟩
      · simp [filterLoop_cons, hs, hw]
      · simp [filterLoop_cons, hs, hw]
      · intro hall
        exact absurd (hall n) hw

/-- Before the trigger: lines that are no trigger are written one by one and
the flags stay at their initial values. -/
theorem filterLoop_before_trigger (wr : Nat → Bool) (hwr : ∀ k, wr k = true)
    (pre rest : List CStr)
    (hpre : ∀ l ∈ pre, l ≠ MSG_CANNOT_FIND_SERVER ∧ l ≠ MSG_NO_SUCH_FEATURE) (n : Nat) :
    (filterLoop wr (pre ++ rest) initFlags n).emitted =
        pre ++ (filterLoop wr rest initFlags (n + pre.length)).emitted ∧
    (filterLoop wr (pre ++ rest) initFlags n).stop =
        (filterLoop wr rest initFlags (n + pre.length)).stop := by
  induction pre generalizing n with
  | nil => simp
  | cons l pre ih =>
    have hl := hpre l (List.mem_cons_self _ _)
    have hs : scanTrigger initFlags l = initFlags := scanTrigger_of_not_trigger _ _ hl
    have hp : initFlags.print = 1 := rfl
    obtain ⟨e1, e2⟩ := ih (fun x hx => hpre x (List.mem_cons_of_mem _ hx)) (n + 1)
    have harith : n + 1 + pre.length = n + (pre.length + 1) := by omega
    simp [filterLoop_cons, hs, hp, hwr n, e1, e2, harith]

/-- Without a trigger line the loop writes every line and ends at end of stream. -/
theorem filterLoop_no_trigger (wr : Nat → Bool) (hwr : ∀ k, wr k = true) (lines : List CStr)
    (hno : ∀ l ∈ lines, l ≠ MSG_CANNOT_FIND_SERVER ∧ l ≠ MSG_NO_SUCH_FEATURE) :
    (filterLoop wr lines initFlags 0).emitted = lines ∧
    (filterLoop wr lines initFlags 0).stop = .eof := by
  have h := filterLoop_before_trigger wr hwr lines [] hno 0
  simpa [filterLoop] using h

/-- Inside the window: lines other than the closing marker are dropped and
the flags stay `print == 0`, `first == 1`. -/
theorem filterLoop_inside_window (wr : Nat → Bool) (mid rest : List CStr)
    (hmid : ∀ l ∈ mid, l ≠ MSG_GRAPHICS_SUPPORT_CUSTOMER) (n : Nat) :
    (filterLoop wr (mid ++ rest) ⟨0, 1⟩ n).emitted = (filterLoop wr rest ⟨0, 1⟩ n).emitted ∧
    (filterLoop wr (mid ++ rest) ⟨0, 1⟩ n).stop = (filterLoop wr rest ⟨0, 1⟩ n).stop := by
  induction mid with
  | nil => simp
  | cons l mid ih =>
    have hl := hmid l (List.mem_cons_self _ _)
    have hs : scanTrigger ⟨0, 1⟩ l = ⟨0, 1⟩ := scanTrigger_of_first_ne_zero _ _ (by decide)
    obtain ⟨e1, e2⟩ := ih (fun x hx => hmid x (List.mem_cons_of_mem _ hx))
    simp [filterLoop_cons, hs, hl, e1, e2]

/-- The trigger line itself: not written, the flags become `print == 0`, `first == 1`. -/
theorem filterLoop_at_trigger (wr : Nat → Bool) (t : CStr) (rest : List CStr)
    (ht : t = MSG_CANNOT_FIND_SERVER ∨ t = MSG_NO_SUCH_FEATURE) (n : Nat) :
    (filterLoop wr (t :: rest) initFlags n).emitted = (filterLoop wr rest ⟨0, 1⟩ n).emitted ∧
    (filterLoop wr (t :: rest) initFlags n).stop = (filterLoop wr rest ⟨0, 1⟩ n).stop := by
  have hs := scanTrigger_of_trigger t ht
  have hm := trigger_ne_marker t ht
  simp [filterLoop_cons, hs, hm]

/-- The closing marker inside the window: it and the line after it are
consumed, then the loop is in the state `print == 1`, `first == 1`. -/
theorem filterLoop_at_marker (wr : Nat → Bool) (x : CStr) (rest : List CStr) (n : Nat) :
    (filterLoop wr (MSG_GRAPHICS_SUPPORT_CUSTOMER :: x :: rest) ⟨0, 1⟩ n).emitted =
      (filterLoop wr rest ⟨1, 1⟩ n).emitted ∧
    (filterLoop wr (MSG_GRAPHICS_SUPPORT_CUSTOMER :: x :: rest) ⟨0, 1⟩ n).stop =
      (filterLoop wr rest ⟨1, 1⟩ n).stop := by
  rw [filterLoop_cons, scanTrigger_of_first_ne_zero _ _ (by decide)]
  simp

/-- On a sequence of delivered lines `pre`, trigger, `mid`, closing marker,
one more line, `post`, the loop writes `pre` and `post`. -/
theorem filterLoop_window (wr : Nat → Bool) (hwr : ∀ k, wr k = true)
    (pre mid post : List CStr) (t x : CStr)
    (ht : t = MSG_CANNOT_FIND_SERVER ∨ t = MSG_NO_SUCH_FEATURE)
    (hpre : ∀ l ∈ pre, l ≠ MSG_CANNOT_FIND_SERVER ∧ l ≠ MSG_NO_SUCH_FEATURE)
    (hmid : ∀ l ∈ mid, l ≠ MSG_GRAPHICS_SUPPORT_CUSTOMER) :
    (filterLoop wr (pre ++ [t] ++ mid ++ [MSG_GRAPHICS_SUPPORT_CUSTOMER, x] ++ post)
      initFlags 0).emitted = pre ++ post ∧
    (filterLoop wr (pre ++ [t] ++ mid ++ [MSG_GRAPHICS_SUPPORT_CUSTOMER, x] ++ post)
      initFlags 0).stop = .eof := by
  have hform : pre ++ [t] ++ mid ++ [MSG_GRAPHICS_SUPPORT_CUSTOMER, x] ++ post =
      pre ++ (t :: (mid ++ (MSG_GRAPHICS_SUPPORT_CUSTOMER :: x :: post))) := by simp
  obtain ⟨a1, a2⟩ := filterLoop_before_trigger wr hwr pre
    (t :: (mid ++ (MSG_GRAPHICS_SUPPORT_CUSTOMER :: x :: post))) hpre 0
  obtain ⟨b1, b2⟩ := filterLoop_at_trigger wr t
    (mid ++ (MSG_GRAPHICS_SUPPORT_CUSTOMER :: x :: post)) ht (0 + pre.length)
  obtain ⟨c1, c2⟩ := filterLoop_inside_window wr mid
    (MSG_GRAPHICS_SUPPORT_CUSTOMER :: x :: post) hmid (0 + pre.length)
  obtain ⟨d1, d2⟩ := filterLoop_at_marker wr x post (0 + pre.length)
  obtain ⟨e1, _, e3⟩ := (filterLoop_passing wr post (0 + pre.length)).2.2 hwr
  rw [hform, a1, a2, b1, b2, c1, c2, d1, d2, e1, e3]
  exact ⟨rfl, rfl⟩

/-- On a sequence of delivered lines `pre`, trigger, `rest` without a closing
marker, the loop writes `pre` and ends at end of stream. -/
theorem filterLoop_window_unclosed (wr : Nat → Bool) (hwr : ∀ k, wr k = true)
    (pre rest : List CStr) (t : CStr)
    (ht : t = MSG_CANNOT_FIND_SERVER ∨ t = MSG_NO_SUCH_FEATURE)
    (hpre : ∀ l ∈ pre, l ≠ MSG_CANNOT_FIND_SERVER ∧ l ≠ MSG_NO_SUCH_FEATURE)
    (hrest : ∀ l ∈ rest, l ≠ MSG_GRAPHICS_SUPPORT_CUSTOMER) :
    (filterLoop wr (pre ++ [t] ++ rest) initFlags 0).emitted = pre ∧
    (filterLoop wr (pre ++ [t] ++ rest) initFlags 0).stop = .eof := by
  have hform : pre ++ [t] ++ rest = pre ++ (t :: rest) := by simp
  obtain ⟨a1, a2⟩ := filterLoop_before_trigger wr hwr pre (t :: rest) hpre 0
  obtain ⟨b1, b2⟩ := filterLoop_at_trigger wr t rest ht (0 + pre.length)
  obtain ⟨c1, c2⟩ := filterLoop_inside_window wr rest [] hrest (0 + pre.length)
  simp only [List.append_nil] at c1 c2
  rw [hform, a1, a2, b1, b2, c1, c2]
  simp [filterLoop]

/-- On a sequence of delivered lines `pre`, trigger, `mid`, closing marker as
the last line, the loop writes `pre` and is left by the `break`. -/
theorem filterLoop_window_cut (wr : Nat → Bool) (hwr : ∀ k, wr k = true)
    (pre mid : List CStr) (t : CStr)
    (ht : t = MSG_CANNOT_FIND_SERVER ∨ t = MSG_NO_SUCH_FEATURE)
    (hpre : ∀ l ∈ pre, l ≠ MSG_CANNOT_FIND_SERVER ∧ l ≠ MSG_NO_SUCH_FEATURE)
    (hmid : ∀ l ∈ mid, l ≠ MSG_GRAPHICS_SUPPORT_CUSTOMER) :
    (filterLoop wr (pre ++ [t] ++ (mid ++ [MSG_GRAPHICS_SUPPORT_CUSTOMER])) initFlags 0).emitted
      = pre ∧
    (filterLoop wr (pre ++ [t] ++ (mid ++ [MSG_GRAPHICS_SUPPORT_CUSTOMER])) initFlags 0).stop
      = .brk := by
  have hform : pre ++ [t] ++ (mid ++ [MSG_GRAPHICS_SUPPORT_CUSTOMER]) =
      pre ++ (t :: (mid ++ [MSG_GRAPHICS_SUPPORT_CUSTOMER])) := by simp
  obtain ⟨a1, a2⟩ := filterLoop_before_trigger wr hwr pre
    (t :: (mid ++ [MSG_GRAPHICS_SUPPORT_CUSTOMER])) hpre 0
  obtain ⟨b1, b2⟩ := filterLoop_at_trigger wr t (mid ++ [MSG_GRAPHICS_SUPPORT_CUSTOMER]) ht
    (0 + pre.length)
  obtain ⟨c1, c2⟩ := filterLoop_inside_window wr mid [MSG_GRAPHICS_SUPPORT_CUSTOMER] hmid
    (0 + pre.length)
  rw [hform, a1, a2, b1, b2, c1, c2, filterLoop_cons,
    scanTrigger_of_first_ne_zero _ _ (by decide)]
  simp

/-- Induction along the loop: one iteration consumes one line, or two after
the closing marker. -/
theorem loop_induction {P : List CStr → Prop} (nil : P [])
    (cons : ∀ l rest, P rest → (∀ x rest2, rest = x :: rest2 → P rest2) → P (l :: rest)) :
    ∀ lines, P lines := by
  have key : ∀ lines : List CStr, P lines ∧ (∀ x rest2, lines = x :: rest2 → P rest2) := by
    intro lines
    induction lines with
    | nil => exact ⟨nil, fun _ _ h => by cases h⟩
    | cons l rest ih =>
      refine ⟨cons l rest ih.1 ih.2, ?_⟩
      intro x rest2 h
      cases h
      exact ih.1
  exact fun lines => (key lines).1

/-- Along any run, `first` stays set once it is set. -/
theorem filterLoop_first_sticky (wr : Nat → Bool) (lines : List CStr) (fl : Flags) (n : Nat) :
    List.Chain' (fun a b : Flags => a.first = 1 → b.first = 1)
      (fl :: (filterLoop wr lines fl n).flags) := by
  induction lines using loop_induction generalizing fl n with
  | nil => simp [filterLoop]
  | cons l rest ih ih2 =>
    have hstep : fl.first = 1 → (scanTrigger fl l).first = 1 := by
      intro h
      rw [scanTrigger_of_first_ne_zero fl l (by omega)]
      exact h
    rw [filterLoop_cons]
    split_ifs with hp hw hm
    · exact List.Chain'.cons hstep (ih _ _)
    · simpa using hstep
    · cases rest with
      | nil => simpa using hstep
      | cons x rest2 => exact List.Chain'.cons hstep (ih2 x rest2 rfl _ _)
    · exact List.Chain'.cons hstep (ih _ _)

/-- With `first` set there is no further entry into suppression. -/
theorem enterCount_of_first_set (wr : Nat → Bool) (lines : List CStr) (fl : Flags) (n : Nat)
    (hf : fl.first ≠ 0) : enterCount (fl :: (filterLoop wr lines fl n).flags) = 0 := by
  induction lines using loop_induction generalizing fl n with
  | nil => simp [filterLoop, enterCount]
  | cons l rest ih ih2 =>
    have hs := scanTrigger_of_first_ne_zero fl l hf
    rw [filterLoop_cons, hs]
    split_ifs with hp hw hm
    · simp [enterCount, hp, ih fl (n + 1) hf]
    · simp [enterCount]
    · cases rest with
      | nil => simp [enterCount]
      | cons x rest2 =>
        have := ih2 x rest2 rfl { fl with print := 1 } n hf
        simp [enterCount, this]
    · simp [enterCount, hp, ih fl n hf]

/-- A run that starts in PASSING enters suppression at most once. -/
theorem enterCount_le_one (wr : Nat → Bool) (lines : List CStr) (fl : Flags) (n : Nat)
    (hp : fl.print = 1) : enterCount (fl :: (filterLoop wr lines fl n).flags) ≤ 1 := by
  induction lines generalizing n with
  | nil => simp [filterLoop, enterCount]
  | cons l rest ih =>
    by_cases hf : fl.first = 0
    · by_cases ht : l = MSG_CANNOT_FIND_SERVER ∨ l = MSG_NO_SUCH_FEATURE
      · have hs : scanTrigger fl l = ⟨0, 1⟩ := by simp [scanTrigger, hf, ht]
        have hm := trigger_ne_marker l ht
        have h0 := enterCount_of_first_set wr rest ⟨0, 1⟩ n (by decide)
        rw [filterLoop_cons, hs]
        simp [hm, enterCount, hp, h0]
      · have hs : scanTrigger fl l = fl := by simp [scanTrigger, hf, ht]
        rw [filterLoop_cons, hs]
        by_cases hw : wr n = true
        · simp [hp, hw, enterCount, ih (n + 1)]
        · simp [hp, hw, enterCount]
    · have := enterCount_of_first_set wr (l :: rest) fl n hf
      omega

/-! ## The loop call by call and the loop line by line -/

theorem filterStream_nil (wr : Nat → Bool) (fl : Flags) (n : Nat) :
    filterStream wr [] fl n = { emitted := [], flags := [], final := fl, stop := .eof } := by
  rw [filterStream]
  rfl

theorem filterStream_cons (wr : Nat → Bool) (c : Char) (t : List Char) (fl : Flags) (n : Nat) :
    filterStream wr (c :: t) fl n =
      if (scanTrigger fl (stripNewline (cstr (fgetsChars 1023 (c :: t)).1))).print = 1 then
        if wr n then
          { filterStream wr (fgetsChars 1023 (c :: t)).2
              (scanTrigger fl (stripNewline (cstr (fgetsChars 1023 (c :: t)).1))) (n + 1) with
            emitted := stripNewline (cstr (fgetsChars 1023 (c :: t)).1) ::
              (filterStream wr (fgetsChars 1023 (c :: t)).2
                (scanTrigger fl (stripNewline (cstr (fgetsChars 1023 (c :: t)).1)))
                (n + 1)).emitted,
            flags := scanTrigger fl (stripNewline (cstr (fgetsChars 1023 (c :: t)).1)) ::
              (filterStream wr (fgetsChars 1023 (c :: t)).2
                (scanTrigger fl (stripNewline (cstr (fgetsChars 1023 (c :: t)).1)))
                (n + 1)).flags }
        else
          { emitted := [],
            flags := [scanTrigger fl (stripNewline (cstr (fgetsChars 1023 (c :: t)).1))],
            final := scanTrigger fl (stripNewline (cstr (fgetsChars 1023 (c :: t)).1)),
            stop := .writeFail }
      else if stripNewline (cstr (fgetsChars 1023 (c :: t)).1) =
          MSG_GRAPHICS_SUPPORT_CUSTOMER then
        match (fgetsChars 1023 (c :: t)).2 with
        | [] =>
          { emitted := [],
            flags := [scanTrigger fl (stripNewline (cstr (fgetsChars 1023 (c :: t)).1))],
            final := scanTrigger fl (stripNewline (cstr (fgetsChars 1023 (c :: t)).1)),
            stop := .brk }
        | c2 :: t2 =>
          { filterStream wr (fgetsChars 1023 (c2 :: t2)).2
              { scanTrigger fl (stripNewline (cstr (fgetsChars 1023 (c :: t)).1)) with
                print := 1 } n with
            flags :=
              { scanTrigger fl (stripNewline (cstr (fgetsChars 1023 (c :: t)).1)) with
                print := 1 } ::
              (filterStream wr (fgetsChars 1023 (c2 :: t2)).2
                { scanTrigger fl (stripNewline (cstr (fgetsChars 1023 (c :: t)).1)) with
                  print := 1 } n).flags }
      else
        { filterStream wr (fgetsChars 1023 (c :: t)).2
            (scanTrigger fl (stripNewline (cstr (fgetsChars 1023 (c :: t)).1))) n with
          flags := scanTrigger fl (stripNewline (cstr (fgetsChars 1023 (c :: t)).1)) ::
            (filterStream wr (fgetsChars 1023 (c :: t)).2
              (scanTrigger fl (stripNewline (cstr (fgetsChars 1023 (c :: t)).1))) n).flags } := by
  rw [filterStream]
  simp only [fgets]
  split_ifs with h1 h2 h3
  · rfl
  · rfl
  · cases hr : (fgetsChars 1023 (c :: t)).2 with
    | nil => rfl
    | cons c2 t2 => rfl
  · rfl

/-- The loop transcribed call by call does what `filterLoop` does on the lines
`readLines` delivers. -/
theorem filterStream_eq_filterLoop (wr : Nat → Bool) (s : List Char) (fl : Flags) (n : Nat) :
    filterStream wr s fl n = filterLoop wr (readLines s) fl n := by
  generalize hk : s.length = k
  induction k using Nat.strong_induction_on generalizing s fl n with
  | _ k ih =>
    cases s with
    | nil => rw [filterStream_nil, readLines_nil]; rfl
    | cons c t =>
      have hlt : (fgetsChars 1023 (c :: t)).2.length < k := by
        rw [← hk]; exact fgetsChars_rest_lt 1022 c t
      rw [filterStream_cons, readLines_cons, filterLoop_cons]
      rw [ih _ hlt _ _ _ rfl, ih _ hlt _ _ _ rfl]
      cases hr : (fgetsChars 1023 (c :: t)).2 with
      | nil => simp [readLines_nil]
      | cons c2 t2 =>
        have hlt2 : (fgetsChars 1023 (c2 :: t2)).2.length < k := by
          have := fgetsChars_rest_lt 1022 c2 t2
          rw [hr] at hlt
          exact Nat.lt_trans this hlt
        rw [readLines_cons]
        simp only [ih _ hlt2 _ _ _ rfl]

/-! ## The filter on line sequences: claim C3 -/

/-- C3 (suppression is one-shot).  From the state `print == 1`, `first == 1`
every iteration leaves the state unchanged and, the writes succeeding, every
line is emitted, whatever the lines are; along every run `first` is never
cleared once set; and a run from the initial flags goes from PASSING to
SUPPRESSING at most once.  The same holds of the loop of `main` on every pipe
content. -/
theorem suppression_one_shot (wr : Nat → Bool) (lines : List CStr) (n : Nat) :
    (∀ f ∈ (filterLoop wr lines ⟨1, 1⟩ n).flags, f = ⟨1, 1⟩) ∧
    (filterLoop wr lines ⟨1, 1⟩ n).final = ⟨1, 1⟩ ∧
    ((∀ k, wr k = true) → (filterLoop wr lines ⟨1, 1⟩ n).emitted = lines) ∧
    (∀ fl : Flags, List.Chain' (fun a b : Flags => a.first = 1 → b.first = 1)
      (fl :: (filterLoop wr lines fl n).flags)) ∧
    enterCount (initFlags :: (filterLoop wr lines initFlags n).flags) ≤ 1 ∧
    (∀ s : List Char,
      (∀ f ∈ (filterStream wr s ⟨1, 1⟩ n).flags, f = ⟨1, 1⟩) ∧
      ((∀ k, wr k = true) → (filterStream wr s ⟨1, 1⟩ n).emitted = readLines s) ∧
      (∀ fl : Flags, List.Chain' (fun a b : Flags => a.first = 1 → b.first = 1)
        (fl :: (filterStream wr s fl n).flags)) ∧
      enterCount (initFlags :: (filterStream wr s initFlags n).flags) ≤ 1) := by
  obtain ⟨h1, h2, h3⟩ := filterLoop_passing wr lines n
  refine ⟨h1, h2, fun hall => (h3 hall).1, fun fl => filterLoop_first_sticky wr lines fl n,
    enterCount_le_one wr lines initFlags n rfl, fun s => ?_⟩
  obtain ⟨g1, _, g3⟩ := filterLoop_passing wr (readLines s) n
  simp only [filterStream_eq_filterLoop]
  exact ⟨g1, fun hall => (g3 hall).1, fun fl => filterLoop_first_sticky wr (readLines s) fl n,
    enterCount_le_one wr (readLines s) initFlags n rfl⟩

/-- After a closed window the three fixed strings are emitted like any line. -/
theorem suppression_one_shot_witness :
    (∀ k, (fun _ : Nat => true) k = true) ∧
    (filterLoop (fun _ => true)
      [MSG_CANNOT_FIND_SERVER, MSG_NO_SUCH_FEATURE, MSG_GRAPHICS_SUPPORT_CUSTOMER, "z".toList]
      ⟨1, 1⟩ 0).emitted =
      [MSG_CANNOT_FIND_SERVER, MSG_NO_SUCH_FEATURE, MSG_GRAPHICS_SUPPORT_CUSTOMER, "z".toList] :=
  ⟨fun _ => rfl,
    (suppression_one_shot (fun _ => true)
      [MSG_CANNOT_FIND_SERVER, MSG_NO_SUCH_FEATURE, MSG_GRAPHICS_SUPPORT_CUSTOMER, "z".toList]
      0).2.2.1 (fun _ => rfl)⟩

/-! ## Resolver, launcher and reaper: claims C5-C9 -/

theorem resolve_eq_some (sys : Sys) (command : CStr)
    (h : usrBin.length + command.length < sys.PATH_MAX) :
    resolve sys command = some (usrBin ++ command) := by
  simp [resolve, h]

theorem resolve_eq_none (sys : Sys) (command : CStr)
    (h : sys.PATH_MAX ≤ usrBin.length + command.length) :
    resolve sys command = none := by
  simp [resolve, h]

/-- When the set-up succeeds and the filter and `waitpid` complete without
error, `main` ends with the status decoding. -/
theorem main_reaches_reap (sys : Sys) (w : World) (command : CStr)
    (hb : w.basename = some command)
    (hlen : usrBin.length + command.length < sys.PATH_MAX)
    (hacc : w.access (usrBin ++ command) = true) (hpipe : w.pipeOk = true)
    (hfork : w.fork = .parent) (hcw : w.parentCloseWriteOk = true)
    (hfd : w.fdopenOk = true)
    (hloop : (filterStream w.stderrOk w.pipeData initFlags 0).stop ≠ .writeFail)
    (hrd : w.readError = false) (hfc : w.fcloseOk = true) (hwp : w.waitpidOk = true) :
    (main sys w).outcome = (reap sys w.status).outcome := by
  simp [main, hb, resolve_eq_some sys command hlen, hacc, hpipe, hfork, parent, hcw, hfd,
    hloop, hrd, hfc, hwp]

theorem child_outcome (sys : Sys) (w : World) (p : CStr) :
    (child sys w p).outcome = .exec ∨ (child sys w p).outcome = .exit sys.EXIT_FAILURE := by
  unfold child
  cases w.childCloseReadOk <;> cases w.dup2Ok <;> cases w.childCloseWriteOk <;>
    cases w.malloc <;> cases w.execvOk <;> simp

theorem reap_outcome (sys : Sys) (status : Int) :
    (sys.WIFEXITED status = true ∧ (reap sys status).outcome = .ret (sys.WEXITSTATUS status)) ∨
    (sys.WIFEXITED status = false ∧ (reap sys status).outcome = .exit sys.EXIT_FAILURE) := by
  unfold reap
  cases sys.WIFEXITED status <;> cases sys.WIFSIGNALED status <;> simp

theorem parent_outcome (sys : Sys) (w : World) :
    (parent sys w).outcome = .exit sys.EXIT_FAILURE ∨
    (parent sys w).outcome = (reap sys w.status).outcome := by
  unfold parent
  cases w.parentCloseWriteOk <;> cases w.fdopenOk <;> cases w.readError <;>
    cases w.fcloseOk <;> cases w.waitpidOk <;> simp <;> split_ifs <;> simp

/-- Every `exit` of `main` is `exit(EXIT_FAILURE)`; the only `return` gives
`WEXITSTATUS(status)` of a status with `WIFEXITED(status)`. -/
theorem main_outcome_cases (sys : Sys) (w : World) :
    (main sys w).outcome = .exec ∨ (main sys w).outcome = .exit sys.EXIT_FAILURE ∨
    (sys.WIFEXITED w.status = true ∧ (main sys w).outcome = .ret (sys.WEXITSTATUS w.status)) := by
  rcases hb : w.basename with _ | command
  · simp [main, hb]
  rcases hr : resolve sys command with _ | p
  · simp [main, hb, hr]
  rcases ha : w.access p
  · simp [main, hb, hr, ha]
  rcases hp : w.pipeOk
  · simp [main, hb, hr, ha, hp]
  rcases hf : w.fork
  · simp [main, hb, hr, ha, hp, hf]
  · rcases child_outcome sys w p with h | h <;> simp [main, hb, hr, ha, hp, hf, h]
  · rcases parent_outcome sys w with h | h
    · simp [main, hb, hr, ha, hp, hf, h]
    · rcases reap_outcome sys w.status with ⟨h1, h2⟩ | ⟨h1, h2⟩
      · simp [main, hb, hr, ha, hp, hf, h, h1, h2]
      · simp [main, hb, hr, ha, hp, hf, h, h2]

theorem resolve_eq_some_iff (sys : Sys) (command p : CStr) :
    resolve sys command = some p ↔
      usrBin.length + command.length < sys.PATH_MAX ∧ p = usrBin ++ command := by
  unfold resolve
  split_ifs with h
  · simp; omega
  · simp only [Option.some.injEq]
    constructor
    · intro e; exact ⟨by omega, e.symm⟩
    · intro e; exact e.2.symm

/-- The copy loop seen cell by cell. -/
theorem foldl_set_getElem? (f : Nat → Option CStr) (k s : Nat) (l : List (Option CStr))
    (j : Nat) :
    ((List.range' s k).foldl (fun a i => a.set i (f i)) l)[j]? =
      if s ≤ j ∧ j < s + k ∧ j < l.length then some (f j) else l[j]? := by
  induction k generalizing s l with
  | zero =>
    simp only [List.range'_zero, List.foldl_nil]
    rw [if_neg]
    omega
  | succ k ih =>
    rw [List.range'_succ, List.foldl_cons, ih]
    simp only [List.length_set, List.getElem?_set]
    by_cases h1 : s = j
    · subst h1
      by_cases h2 : s < l.length
      · have : ¬ (s + 1 ≤ s ∧ s < s + 1 + k ∧ s < l.length) := by omega
        simp [this, h2]
      · have h3 := List.getElem?_eq_none (l := l) (n := s) (by omega)
        have : ¬ (s + 1 ≤ s ∧ s < s + 1 + k ∧ s < l.length) := by omega
        simp [this, h2, h3]
    · simp only [h1, if_false]
      by_cases h2 : s + 1 ≤ j ∧ j < s + 1 + k ∧ j < l.length
      · have : s ≤ j ∧ j < s + (k + 1) ∧ j < l.length := by omega
        simp [h2, this]
      · have : ¬ (s ≤ j ∧ j < s + (k + 1) ∧ j < l.length) := by omega
        simp [h2, this]

theorem foldl_set_length (f : Nat → Option CStr) (k s : Nat) (l : List (Option CStr)) :
    ((List.range' s k).foldl (fun a i => a.set i (f i)) l).length = l.length := by
  induction k generalizing s l with
  | zero => simp
  | succ k ih => rw [List.range'_succ, List.foldl_cons, ih, List.length_set]

/-- The vector built for `execv`. -/
theorem buildArgv_eq (block : Nat → Option CStr) (cmd_path : CStr) (argv : List CStr)
    (h : 1 ≤ argv.length) :
    buildArgv block cmd_path argv = some cmd_path :: argv.tail.map some ++ [none] := by
  obtain ⟨a0, rest, rfl⟩ : ∃ a0 rest, argv = a0 :: rest := by
    cases argv with
    | nil => simp at h
    | cons a r => exact ⟨a, r, rfl⟩
  apply List.ext_getElem?
  intro j
  unfold buildArgv copyArgs
  simp only [List.getElem?_set, foldl_set_length, foldl_set_getElem?, List.length_set,
    List.length_map, List.length_range, List.length_cons, List.tail_cons]
  rcases j with _ | j
  · simp
  · by_cases hj : j < rest.length
    · have h1 : rest.length ≠ j := by omega
      have h2 : j + 1 < 1 + rest.length ∧ j < rest.length + 1 := by omega
      have h3 : j < (List.map some rest).length := by simpa using hj
      simp only [hj, List.getElem?_cons_succ, List.cons_append, Nat.add_left_inj, h1,
        if_false, List.length_cons, Nat.add_one_sub_one]
      rw [if_pos (by omega), List.getElem?_append_left h3]
      simp [hj]
    · by_cases hj2 : j = rest.length
      · simp [hj2]
      · have h1 : rest.length ≠ j := fun e => hj2 e.symm
        have h2 : ¬ (j + 1 < 1 + rest.length ∧ j < rest.length + 1) := by omega
        have h3 : (List.range (rest.length + 1 + 1))[j + 1]? = none :=
          List.getElem?_eq_none (by simp; omega)
        have h4 : (List.map some rest ++ [none])[j]? = none :=
          List.getElem?_eq_none (by simp; omega)
        simp only [List.getElem?_cons_succ, List.cons_append, Nat.add_left_inj, h1,
          if_false, List.length_cons, Nat.add_one_sub_one, h4]
        rw [if_neg (by omega), if_neg (by omega), List.getElem?_map, h3]
        rfl

/-- C5 (exit-status translation).  When the set-up succeeds and filtering,
`fclose` and `waitpid` complete without error, then for every wait status
`main` returns `WEXITSTATUS(status)` if `WIFEXITED(status)` holds and calls
`exit(EXIT_FAILURE)` otherwise (death by a signal or any other termination);
with the Linux encoding of the status the returned code lies in 0..255. -/
theorem exit_status_translation (sys : Sys) (w : World) (command : CStr)
    (hb : w.basename = some command)
    (hlen : usrBin.length + command.length < sys.PATH_MAX)
    (hacc : w.access (usrBin ++ command) = true) (hpipe : w.pipeOk = true)
    (hfork : w.fork = .parent) (hcw : w.parentCloseWriteOk = true)
    (hfd : w.fdopenOk = true)
    (hloop : (filterStream w.stderrOk w.pipeData initFlags 0).stop ≠ .writeFail)
    (hrd : w.readError = false) (hfc : w.fcloseOk = true) (hwp : w.waitpidOk = true) :
    (sys.WIFEXITED w.status = true →
      (main sys w).outcome = .ret (sys.WEXITSTATUS w.status)) ∧
    (sys.WIFEXITED w.status = false → (main sys w).outcome = .exit sys.EXIT_FAILURE) ∧
    (0 ≤ linux.WEXITSTATUS w.status ∧ linux.WEXITSTATUS w.status ≤ 255) := by
  have hm := main_reaches_reap sys w command hb hlen hacc hpipe hfork hcw hfd hloop hrd hfc hwp
  refine ⟨fun h => ?_, fun h => ?_, ?_, ?_⟩
  · rcases reap_outcome sys w.status with ⟨_, h2⟩ | ⟨h1, _⟩
    · exact hm.trans h2
    · rw [h] at h1; cases h1
  · rcases reap_outcome sys w.status with ⟨h1, _⟩ | ⟨_, h2⟩
    · rw [h] at h1; cases h1
    · exact hm.trans h2
  · show 0 ≤ (w.status / 256) % 256
    omega
  · show (w.status / 256) % 256 ≤ 255
    omega

/-- A child that exits with code 3 (wait status `0x0300`): `main` returns 3. -/
theorem exit_status_translation_witness :
    (main linux { quietWorld with status := 768 }).outcome = .ret 3 :=
  (exit_status_translation linux { quietWorld with status := 768 } "cc".toList rfl
    (by decide) rfl rfl rfl rfl rfl (by simp [quietWorld, filterStream_nil])
    rfl rfl rfl).1 rfl

/-- C6, as the code has it.  For every invocation base name the resolver gives
`"/usr/bin/"` followed by the name whenever the length of that concatenation
is strictly less than `PATH_MAX`, and `main` then makes the access check on
that path; the path-too-long failure (the diagnostic alone, then
`exit(EXIT_FAILURE)`, no access check) happens exactly when the length is
greater than or equal to `PATH_MAX`. -/
theorem resolver_path_limit (sys : Sys) (w : World) (command : CStr)
    (hb : w.basename = some command) :
    (usrBin.length + command.length < sys.PATH_MAX →
      resolve sys command = some (usrBin ++ command) ∧
      (main sys w).trace.head? = some (.access (usrBin ++ command))) ∧
    (resolve sys command = none ↔ sys.PATH_MAX ≤ usrBin.length + command.length) ∧
    (sys.PATH_MAX ≤ usrBin.length + command.length →
      main sys w = ⟨[.diag .pathTooLong], .exit sys.EXIT_FAILURE⟩) := by
  refine ⟨fun h => ⟨resolve_eq_some sys command h, ?_⟩, ?_, fun h => ?_⟩
  · rcases ha : w.access (usrBin ++ command) <;> rcases hp : w.pipeOk <;>
      rcases hf : w.fork <;>
      simp [main, hb, resolve_eq_some sys command h, ha, hp, hf]
  · unfold resolve
    split_ifs with h <;> simp <;> omega
  · simp [main, hb, resolve_eq_none sys command h]

/-- On Linux the name `cc` (11 characters of path) is resolved to `/usr/bin/cc`. -/
theorem resolver_path_limit_witness :
    quietWorld.basename = some "cc".toList ∧
    usrBin.length + "cc".toList.length < linux.PATH_MAX ∧
    resolve linux "cc".toList = some "/usr/bin/cc".toList :=
  ⟨rfl, by decide,
    ((resolver_path_limit linux quietWorld "cc".toList rfl).1 (by decide)).1⟩

/-- C6 as stated fails: with `PATH_MAX` 4096 and a base name of 4087
characters the concatenation has length 4096, which is not greater than
`PATH_MAX`, and still `main` takes the path-too-long exit. -/
theorem resolver_path_limit_counterexample :
    usrBin.length + (List.replicate 4087 'a').length ≤ linux.PATH_MAX ∧
    resolve linux (List.replicate 4087 'a') = none ∧
    main linux { quietWorld with basename := some (List.replicate 4087 'a') } =
      ⟨[.diag .pathTooLong], .exit 1⟩ := by
  have hu : usrBin.length = 9 := rfl
  have hp : linux.PATH_MAX = 4096 := rfl
  have h : linux.PATH_MAX ≤ usrBin.length + (List.replicate 4087 'a').length := by
    rw [hu, hp, List.length_replicate]
  refine ⟨?_, resolve_eq_none linux _ h, ?_⟩
  · rw [hu, hp, List.length_replicate]
  · simp only [main, resolve_eq_none linux _ h]
    rfl

/-- C7 (a missing target is rejected before spawning).  If the access check
on the resolved path `"/usr/bin/" ++ name` fails, `main` calls
`exit(EXIT_FAILURE)` and makes no `pipe`, no `fork` and no `execv` call;
conversely, when `pipe`, `fork` or `execv` is called, the length check and the
access check have both succeeded. -/
theorem missing_target_rejected (sys : Sys) (w : World) :
    (∀ command, w.basename = some command → w.access (usrBin ++ command) = false →
      (main sys w).outcome = .exit sys.EXIT_FAILURE ∧
      Event.pipe ∉ (main sys w).trace ∧ Event.fork ∉ (main sys w).trace ∧
      ∀ p v, Event.execv p v ∉ (main sys w).trace) ∧
    ((Event.pipe ∈ (main sys w).trace ∨ Event.fork ∈ (main sys w).trace ∨
        ∃ p v, Event.execv p v ∈ (main sys w).trace) →
      ∃ command, w.basename = some command ∧
        usrBin.length + command.length < sys.PATH_MAX ∧
        w.access (usrBin ++ command) = true) := by
  constructor
  · intro command hb ha
    rcases hr : resolve sys command with _ | p
    · simp [main, hb, hr]
    · obtain ⟨_, rfl⟩ := (resolve_eq_some_iff sys command p).1 hr
      simp [main, hb, hr, ha]
  · intro h
    rcases hb : w.basename with _ | command
    · simp [main, hb] at h
    rcases hr : resolve sys command with _ | p
    · simp [main, hb, hr] at h
    obtain ⟨hlen, rfl⟩ := (resolve_eq_some_iff sys command p).1 hr
    rcases ha : w.access (usrBin ++ command)
    · simp [main, hb, hr, ha] at h
    · exact ⟨command, rfl, hlen, ha⟩

/-- With no executable `/usr/bin/cc` the run is the access check, the
diagnostic and `exit(1)`. -/
theorem missing_target_rejected_witness :
    ({ quietWorld with access := fun _ => false } : World).basename = some "cc".toList ∧
    main linux { quietWorld with access := fun _ => false } =
      ⟨[.access "/usr/bin/cc".toList, .diag (.notExecutable "/usr/bin/cc".toList)], .exit 1⟩ ∧
    Event.pipe ∉ (main linux { quietWorld with access := fun _ => false }).trace :=
  ⟨rfl, by decide,
    ((missing_target_rejected linux { quietWorld with access := fun _ => false }).1
      "cc".toList rfl rfl).2.1⟩

/-- The parent branch only writes child lines and diagnostics and calls `waitpid`. -/
theorem parent_trace_mem (sys : Sys) (w : World) (e : Event)
    (h : e ∈ (parent sys w).trace) :
    (∃ l, e = .emit l) ∨ e = .waitpid ∨ ∃ d, e = .diag d := by
  unfold parent reap at h
  split_ifs at h <;> simp at h <;> aesop

/-- Every `execv` call of `main` is the one of the child branch, on the
resolved path and the vector built from the `malloc` block. -/
theorem execv_in_trace (sys : Sys) (w : World) (p : CStr) (v : List (Option CStr))
    (h : Event.execv p v ∈ (main sys w).trace) :
    ∃ command block, w.basename = some command ∧ w.malloc = some block ∧
      p = usrBin ++ command ∧ v = buildArgv block p w.argv := by
  rcases hb : w.basename with _ | command
  · simp [main, hb] at h
  rcases hr : resolve sys command with _ | q
  · simp [main, hb, hr] at h
  obtain ⟨_, rfl⟩ := (resolve_eq_some_iff sys command q).1 hr
  rcases ha : w.access (usrBin ++ command)
  · simp [main, hb, hr, ha] at h
  rcases hp : w.pipeOk
  · simp [main, hb, hr, ha, hp] at h
  rcases hf : w.fork
  · simp [main, hb, hr, ha, hp, hf] at h
  · rcases h1 : w.childCloseReadOk
    · simp [main, hb, hr, ha, hp, hf, child, h1] at h
    rcases h2 : w.dup2Ok
    · simp [main, hb, hr, ha, hp, hf, child, h1, h2] at h
    rcases h3 : w.childCloseWriteOk
    · simp [main, hb, hr, ha, hp, hf, child, h1, h2, h3] at h
    rcases hm : w.malloc with _ | block
    · simp [main, hb, hr, ha, hp, hf, child, h1, h2, h3, hm] at h
    rcases he : w.execvOk <;>
      simp [main, hb, hr, ha, hp, hf, child, h1, h2, h3, hm, he] at h <;>
      (obtain ⟨rfl, rfl⟩ := h; exact ⟨command, block, rfl, rfl, rfl, rfl⟩)
  · exfalso
    simp only [main, hb, hr, ha, hp, hf] at h
    simp at h
    rcases parent_trace_mem sys w _ h with ⟨l, hl⟩ | hl | ⟨d, hl⟩ <;> cases hl

/-- C8 (argument-vector rewrite).  For every argument vector of length
`argc >= 1`, the vector of any `execv` call of `main` is the resolved target
path, then the original `argv[1]`, ..., `argv[argc - 1]` in order, then the
terminating NULL: it has `argc` entries before the NULL, entry 0 is the path
handed to `execv`, entry `i` is `argv[i]` for `1 <= i < argc`. -/
theorem argv_rewrite (sys : Sys) (w : World) (p : CStr) (v : List (Option CStr))
    (hargc : 1 ≤ w.argv.length) (hex : Event.execv p v ∈ (main sys w).trace) :
    (∃ command, w.basename = some command ∧ p = usrBin ++ command) ∧
    v = some p :: w.argv.tail.map some ++ [none] ∧
    v.length = w.argv.length + 1 ∧
    v[0]? = some (some p) ∧
    (∀ i, 1 ≤ i → i < w.argv.length → v[i]? = some w.argv[i]?) ∧
    v[w.argv.length]? = some none := by
  obtain ⟨command, block, hb, _, hp, hv⟩ := execv_in_trace sys w p v hex
  have hv2 : v = some p :: w.argv.tail.map some ++ [none] := by
    rw [hv]; exact buildArgv_eq block p w.argv hargc
  obtain ⟨a0, rest, hargv⟩ : ∃ a0 rest, w.argv = a0 :: rest := by
    cases hw : w.argv with
    | nil => rw [hw] at hargc; simp at hargc
    | cons a r => exact ⟨a, r, rfl⟩
  rw [hargv] at hv2 ⊢
  simp only [List.tail_cons] at hv2
  refine ⟨⟨command, hb, hp⟩, hv2, ?_, ?_, ?_, ?_⟩
  · simp [hv2]
  · simp [hv2]
  · intro i h1 h2
    obtain ⟨j, rfl⟩ : ∃ j, i = j + 1 := ⟨i - 1, by omega⟩
    have h3 : j < rest.length := by simpa using h2
    have h4 : j < (List.map some rest).length := by simpa using h3
    rw [hv2]
    simp only [List.cons_append, List.getElem?_cons_succ]
    rw [List.getElem?_append_left h4]
    simp [h3]
  · rw [hv2]
    simp

/-- Invoked as `cc -c x.c`, the child calls `execv` on `/usr/bin/cc` with the
vector `/usr/bin/cc`, `-c`, `x.c`, NULL. -/
theorem argv_rewrite_witness :
    1 ≤ ({ quietWorld with fork := .child } : World).argv.length ∧
    Event.execv "/usr/bin/cc".toList
      [some "/usr/bin/cc".toList, some "-c".toList, some "x.c".toList, none] ∈
      (main linux { quietWorld with fork := .child }).trace ∧
    [some "/usr/bin/cc".toList, some "-c".toList, some "x.c".toList, none] =
      some "/usr/bin/cc".toList ::
        ({ quietWorld with fork := .child } : World).argv.tail.map some ++ [none] :=
  ⟨by decide, by decide,
    (argv_rewrite linux { quietWorld with fork := .child } "/usr/bin/cc".toList
      [some "/usr/bin/cc".toList, some "-c".toList, some "x.c".toList, none]
      (by decide) (by decide)).2.1⟩

/-- C9, as the code has it.  Every wrapper-internal failure ends in
`exit(EXIT_FAILURE)`, a propagated child exit code is `WEXITSTATUS(status)` of
a status with `WIFEXITED(status)`, and the two codes differ whenever the
child's exit code is not `EXIT_FAILURE`. -/
theorem exit_code_distinction (sys : Sys) (w1 w2 : World) (c1 c2 : Int)
    (h1 : (main sys w1).outcome = .exit c1) (h2 : (main sys w2).outcome = .ret c2) :
    c1 = sys.EXIT_FAILURE ∧
    (sys.WIFEXITED w2.status = true ∧ c2 = sys.WEXITSTATUS w2.status) ∧
    (c2 ≠ sys.EXIT_FAILURE → c1 ≠ c2) := by
  have e1 : c1 = sys.EXIT_FAILURE := by
    rcases main_outcome_cases sys w1 with h | h | ⟨_, h⟩ <;> rw [h1] at h <;> cases h
    rfl
  have e2 : sys.WIFEXITED w2.status = true ∧ c2 = sys.WEXITSTATUS w2.status := by
    rcases main_outcome_cases sys w2 with h | h | ⟨hx, h⟩ <;> rw [h2] at h <;> cases h
    exact ⟨hx, rfl⟩
  exact ⟨e1, e2, fun hne heq => hne (heq ▸ e1)⟩

/-- A missing target gives exit code 1, a child exiting with code 3 gives 3. -/
theorem exit_code_distinction_witness :
    (main linux { quietWorld with access := fun _ => false }).outcome = .exit 1 ∧
    (main linux { quietWorld with status := 768 }).outcome = .ret 3 ∧
    ((3 : Int) ≠ linux.EXIT_FAILURE → (1 : Int) ≠ 3) :=
  have h1 : (main linux { quietWorld with access := fun _ => false }).outcome = .exit 1 := by
    decide
  have h2 : (main linux { quietWorld with status := 768 }).outcome = .ret 3 := by
    simp [main, parent, reap, resolve, quietWorld, filterStream_nil, linux, usrBin]
  ⟨h1, h2, (exit_code_distinction linux _ _ 1 3 h1 h2).2.2⟩

/-- C9 as stated fails: with `EXIT_FAILURE` 1, the run with a missing target
(a wrapper-internal failure) and the run whose child exits normally with
code 1 (wait status `0x0100`) both end with exit code 1. -/
theorem exit_code_distinction_counterexample :
    (main linux { quietWorld with access := fun _ => false }).outcome = .exit 1 ∧
    (main linux { quietWorld with status := 256 }).outcome = .ret 1 ∧
    linux.WIFEXITED 256 = true ∧ linux.WEXITSTATUS 256 = 1 := by
  refine ⟨by decide, ?_, by decide, by decide⟩
  simp [main, parent, reap, resolve, quietWorld, filterStream_nil, linux, usrBin]

/-! ## The pipe at character level: lines that fit, and claim C10 -/

/-- A line that fits: `fgets` stores it with its newline. -/
theorem fgetsChars_line (room : Nat) (l rest : List Char) (hnl : ∀ c ∈ l, c ≠ '\n')
    (hlen : l.length < room) :
    fgetsChars room (l ++ '\n' :: rest) = (l ++ ['\n'], rest) := by
  induction l generalizing room with
  | nil =>
    obtain ⟨k, rfl⟩ : ∃ k, room = k + 1 := ⟨room - 1, by simp at hlen; omega⟩
    simp [fgetsChars]
  | cons c l ih =>
    obtain ⟨k, rfl⟩ : ∃ k, room = k + 1 := ⟨room - 1, by simp at hlen; omega⟩
    have hc : c ≠ '\n' := hnl c (List.mem_cons_self _ _)
    have := ih k (fun x hx => hnl x (List.mem_cons_of_mem _ hx)) (by simpa using hlen)
    simp [fgetsChars, hc, this]

/-- A run of one character longer than the room: `fgets` stores `room` of them. -/
theorem fgetsChars_replicate (room m : Nat) (c : Char) (rest : List Char) (hc : c ≠ '\n')
    (h : room ≤ m) :
    fgetsChars room (List.replicate m c ++ rest) =
      (List.replicate room c, List.replicate (m - room) c ++ rest) := by
  induction room generalizing m with
  | zero => simp [fgetsChars]
  | succ k ih =>
    obtain ⟨j, rfl⟩ : ∃ j, m = j + 1 := ⟨m - 1, by omega⟩
    have := ih j (by omega)
    simp [List.replicate_succ, fgetsChars, hc, this]

theorem cstr_of_no_nul (l : List Char) (h : ∀ c ∈ l, c ≠ '\x00') : cstr l = l := by
  unfold cstr
  rw [List.takeWhile_eq_self_iff]
  intro c hc
  simpa using h c hc

theorem stripNewline_append_newline (l : List Char) : stripNewline (l ++ ['\n']) = l := by
  simp [stripNewline]

theorem stripNewline_of_last_ne (l : List Char) (h : l.getLast? ≠ some '\n') :
    stripNewline l = l := by
  simp [stripNewline, h]

/-- Lines that fit in the buffer (at most 1022 characters besides the
newline, no NUL) are delivered by `fgets` one by one, intact. -/
theorem readLines_render (lines : List CStr)
    (h : ∀ l ∈ lines, l.length ≤ 1022 ∧ ∀ c ∈ l, c ≠ '\n' ∧ c ≠ '\x00') :
    readLines (render lines) = lines := by
  induction lines with
  | nil => simp [render, readLines_nil]
  | cons l ls ih =>
    obtain ⟨hlen, hch⟩ := h l (List.mem_cons_self _ _)
    have hr : render (l :: ls) = l ++ '\n' :: render ls := by simp [render]
    have hf := fgetsChars_line 1023 l (render ls) (fun c hc => (hch c hc).1) (by omega)
    have hs : stripNewline (cstr (l ++ ['\n'])) = l := by
      rw [cstr_of_no_nul, stripNewline_append_newline]
      intro c hc
      rcases List.mem_append.1 hc with hc | hc
      · exact (hch c hc).2
      · simp at hc; subst hc; decide
    rw [hr]
    cases hl : l ++ '\n' :: render ls with
    | nil => simp at hl
    | cons c t =>
      rw [readLines_cons, ← hl, hf]
      simp only [hs]
      rw [ih (fun x hx => h x (List.mem_cons_of_mem _ hx))]

theorem render_cons (l : CStr) (ls : List CStr) :
    render (l :: ls) = l ++ '\n' :: render ls := by
  simp [render]

/-- One line that fits in the buffer is delivered intact, whatever follows. -/
theorem readLines_line (l : CStr) (rest : List Char)
    (h : l.length ≤ 1022 ∧ ∀ c ∈ l, c ≠ '\n' ∧ c ≠ '\x00') :
    readLines (l ++ '\n' :: rest) = l :: readLines rest := by
  obtain ⟨hlen, hch⟩ := h
  have hf := fgetsChars_line 1023 l rest (fun c hc => (hch c hc).1) (by omega)
  have hs : stripNewline (cstr (l ++ ['\n'])) = l := by
    rw [cstr_of_no_nul, stripNewline_append_newline]
    intro c hc
    rcases List.mem_append.1 hc with hc | hc
    · exact (hch c hc).2
    · simp at hc; subst hc; decide
  cases hl : l ++ '\n' :: rest with
  | nil => simp at hl
  | cons c t =>
    rw [readLines_cons, ← hl, hf]
    simp only [hs]

/-- Characters without a newline that fill the room: `fgets` stores them all
and stops. -/
theorem fgetsChars_full (p rest : List Char) (hnl : ∀ c ∈ p, c ≠ '\n') :
    fgetsChars p.length (p ++ rest) = (p, rest) := by
  induction p with
  | nil => simp [fgetsChars]
  | cons c p ih =>
    have hc : c ≠ '\n' := hnl c (List.mem_cons_self _ _)
    have := ih (fun x hx => hnl x (List.mem_cons_of_mem _ hx))
    simp [fgetsChars, hc, this]

/-- The first 1023 characters of a longer line are delivered as a line of
their own. -/
theorem readLines_piece (p rest : List Char) (hlen : p.length = 1023)
    (hch : ∀ c ∈ p, c ≠ '\n' ∧ c ≠ '\x00') :
    readLines (p ++ rest) = p :: readLines rest := by
  have hf := fgetsChars_full p rest (fun c hc => (hch c hc).1)
  rw [hlen] at hf
  have hs : stripNewline (cstr p) = p := by
    rw [cstr_of_no_nul p (fun c hc => (hch c hc).2), stripNewline_of_last_ne]
    intro hl
    exact (hch _ (List.mem_of_getLast?_eq_some hl)).1 rfl
  cases hl : p ++ rest with
  | nil =>
    have := congrArg List.length hl
    simp [hlen] at this
  | cons c t =>
    rw [readLines_cons, ← hl, hf]
    simp only [hs]

/-- A string differs from another one that starts with another character. -/
theorem ne_of_head_ne (l m : CStr) (c d : Char) (hl : l.head? = some c)
    (hm : m.head? = some d) (hcd : c ≠ d) : l ≠ m := by
  intro e
  rw [e, hm] at hl
  exact hcd (Option.some.inj hl).symm

theorem replicate_fits (k : Nat) (c : Char) (hk : k ≤ 1022) (h1 : c ≠ '\n')
    (h2 : c ≠ '\x00') :
    (List.replicate k c).length ≤ 1022 ∧ ∀ d ∈ List.replicate k c, d ≠ '\n' ∧ d ≠ '\x00' := by
  refine ⟨by simpa using hk, fun d hd => ?_⟩
  rw [List.eq_of_mem_replicate hd]
  exact ⟨h1, h2⟩

/-- Lines that fit in the buffer and are no trigger strings reach stderr
character for character. -/
theorem short_lines_unmodified (wr : Nat → Bool) (hwr : ∀ k, wr k = true) (lines : List CStr)
    (h : ∀ l ∈ lines, l.length ≤ 1022 ∧ ∀ c ∈ l, c ≠ '\n' ∧ c ≠ '\x00')
    (hno : ∀ l ∈ lines, l ≠ MSG_CANNOT_FIND_SERVER ∧ l ≠ MSG_NO_SUCH_FEATURE) :
    render (filterStream wr (render lines) initFlags 0).emitted = render lines := by
  rw [filterStream_eq_filterLoop, readLines_render lines h,
    (filterLoop_no_trigger wr hwr lines hno).1]

/-- C10 fails on the code: a line of 1024 characters `x` and its newline is read
in two pieces, of 1023 characters and of one, and each is written with a
newline of its own: 1026 characters reach stderr where 1025 were read. -/
theorem long_line_split :
    readLines (List.replicate 1024 'x' ++ ['\n']) = [List.replicate 1023 'x', ['x']] ∧
    (main linux { quietWorld with pipeData := List.replicate 1024 'x' ++ ['\n'] }).trace =
      [.access "/usr/bin/cc".toList, .pipe, .fork, .emit (List.replicate 1023 'x'),
        .emit ['x'], .waitpid] ∧
    render (filterStream (fun _ => true) (List.replicate 1024 'x' ++ ['\n'])
      initFlags 0).emitted = List.replicate 1023 'x' ++ ['\n', 'x', '\n'] ∧
    render (filterStream (fun _ => true) (List.replicate 1024 'x' ++ ['\n'])
      initFlags 0).emitted ≠ List.replicate 1024 'x' ++ ['\n'] := by
  have hx : ('x' : Char) ≠ '\n' := by decide
  have hf := fgetsChars_replicate 1023 1024 'x' ['\n'] hx (by decide)
  have hread : readLines (List.replicate 1024 'x' ++ ['\n']) =
      [List.replicate 1023 'x', ['x']] := by
    have h1 : List.replicate 1024 'x' ++ ['\n'] =
        'x' :: (List.replicate 1023 'x' ++ ['\n']) := rfl
    have h2 : stripNewline (cstr (List.replicate 1023 'x')) = List.replicate 1023 'x' := by
      rw [cstr_of_no_nul, stripNewline_of_last_ne]
      · intro hl
        have hm := List.mem_of_getLast?_eq_some hl
        rw [List.eq_of_mem_replicate hm] at hx
        exact hx rfl
      · intro c hc
        rw [List.eq_of_mem_replicate hc]
        decide
    have h3 : readLines ['x', '\n'] = [['x']] := by
      have := readLines_render [['x']] (by decide)
      simpa [render] using this
    have h4 : List.replicate (1024 - 1023) 'x' ++ ['\n'] = ['x', '\n'] := rfl
    rw [h1, readLines_cons, ← h1, hf]
    simp only [h2, h4, h3]
  have hno : ∀ l ∈ [List.replicate 1023 'x', ['x']],
      l ≠ MSG_CANNOT_FIND_SERVER ∧ l ≠ MSG_NO_SUCH_FEATURE := by
    intro l hl
    have hhead : l.head? = some 'x' := by
      rcases List.mem_cons.1 hl with rfl | hl
      · rfl
      · rw [List.mem_singleton.1 hl]; rfl
    constructor <;> intro e <;> rw [e] at hhead <;> revert hhead <;> decide
  have e := filterLoop_no_trigger (fun _ => true) (fun _ => rfl)
    [List.replicate 1023 'x', ['x']] hno
  have hout : render [List.replicate 1023 'x', ['x']] =
      List.replicate 1023 'x' ++ ['\n', 'x', '\n'] := by
    simp only [render, List.flatMap_cons, List.flatMap_nil, List.append_assoc,
      List.cons_append, List.nil_append, List.append_nil]
  refine ⟨hread, ?_, ?_, ?_⟩
  · have hr : resolve linux "cc".toList = some "/usr/bin/cc".toList := by decide
    simp only [main, parent, quietWorld, hr, filterStream_eq_filterLoop, hread, e.1, e.2]
    rfl
  · rw [filterStream_eq_filterLoop, hread, e.1, hout]
  · rw [filterStream_eq_filterLoop, hread, e.1, hout]
    intro h
    have := congrArg List.length h
    simp only [List.length_append, List.length_replicate, List.length_cons,
      List.length_nil] at this
    omega

/-! ## Lines longer than the buffer: claims C1, C2 and C4 -/

/-- On pipe contents whose lines all fit in the buffer the window is removed:
`pre` and `post` are written and nothing else. -/
theorem fitting_window_removed (wr : Nat → Bool) (hwr : ∀ k, wr k = true)
    (pre mid post : List CStr) (t x : CStr)
    (ht : t = MSG_CANNOT_FIND_SERVER ∨ t = MSG_NO_SUCH_FEATURE)
    (hpre : ∀ l ∈ pre, l ≠ MSG_CANNOT_FIND_SERVER ∧ l ≠ MSG_NO_SUCH_FEATURE)
    (hmid : ∀ l ∈ mid, l ≠ MSG_GRAPHICS_SUPPORT_CUSTOMER)
    (hfit : ∀ l ∈ pre ++ [t] ++ mid ++ [MSG_GRAPHICS_SUPPORT_CUSTOMER, x] ++ post,
      l.length ≤ 1022 ∧ ∀ c ∈ l, c ≠ '\n' ∧ c ≠ '\x00') :
    (filterStream wr
      (render (pre ++ [t] ++ mid ++ [MSG_GRAPHICS_SUPPORT_CUSTOMER, x] ++ post))
      initFlags 0).emitted = pre ++ post := by
  rw [filterStream_eq_filterLoop, readLines_render _ hfit]
  exact (filterLoop_window wr hwr pre mid post t x ht hpre hmid).1

/-- On pipe contents whose lines all fit in the buffer and that end inside the
window only `pre` is written. -/
theorem fitting_window_unclosed (wr : Nat → Bool) (hwr : ∀ k, wr k = true)
    (pre rest : List CStr) (t : CStr)
    (ht : t = MSG_CANNOT_FIND_SERVER ∨ t = MSG_NO_SUCH_FEATURE)
    (hpre : ∀ l ∈ pre, l ≠ MSG_CANNOT_FIND_SERVER ∧ l ≠ MSG_NO_SUCH_FEATURE)
    (hrest : ∀ l ∈ rest, l ≠ MSG_GRAPHICS_SUPPORT_CUSTOMER)
    (hfit : ∀ l ∈ pre ++ [t] ++ rest, l.length ≤ 1022 ∧ ∀ c ∈ l, c ≠ '\n' ∧ c ≠ '\x00') :
    (filterStream wr (render (pre ++ [t] ++ rest)) initFlags 0).emitted = pre := by
  rw [filterStream_eq_filterLoop, readLines_render _ hfit]
  exact (filterLoop_window_unclosed wr hwr pre rest t ht hpre hrest).1

/-- C1 fails on the code.  The pipe content is the trigger line, the closing
marker, a line `x` of 1030 characters `y` and the line `b` (so `pre` and `mid`
are empty and `post` is `["b"]`).  The `fgets` after the marker consumes only
the first 1023 characters of `x`; the 7 left are read as a line of their own
and written: `main` emits `yyyyyyy` and `b` where the claim says `b` alone. -/
theorem window_long_line_leaks :
    readLines (render [MSG_CANNOT_FIND_SERVER, MSG_GRAPHICS_SUPPORT_CUSTOMER,
        List.replicate 1030 'y', "b".toList]) =
      [MSG_CANNOT_FIND_SERVER, MSG_GRAPHICS_SUPPORT_CUSTOMER, List.replicate 1023 'y',
        "yyyyyyy".toList, "b".toList] ∧
    (filterStream (fun _ => true)
      (render [MSG_CANNOT_FIND_SERVER, MSG_GRAPHICS_SUPPORT_CUSTOMER,
        List.replicate 1030 'y', "b".toList]) initFlags 0).emitted =
      ["yyyyyyy".toList, "b".toList] ∧
    (filterStream (fun _ => true)
      (render [MSG_CANNOT_FIND_SERVER, MSG_GRAPHICS_SUPPORT_CUSTOMER,
        List.replicate 1030 'y', "b".toList]) initFlags 0).emitted ≠ [] ++ ["b".toList] ∧
    (main linux { quietWorld with
      pipeData := render [MSG_CANNOT_FIND_SERVER, MSG_GRAPHICS_SUPPORT_CUSTOMER,
        List.replicate 1030 'y', "b".toList] }).trace =
      [.access "/usr/bin/cc".toList, .pipe, .fork, .emit "yyyyyyy".toList,
        .emit "b".toList, .waitpid] := by
  have hy1 : ('y' : Char) ≠ '\n' := by decide
  have hy0 : ('y' : Char) ≠ '\x00' := by decide
  have hsplit : ∀ R : List Char, List.replicate 1030 'y' ++ '\n' :: R =
      List.replicate 1023 'y' ++ ("yyyyyyy".toList ++ '\n' :: R) := by
    intro R
    have h7 : "yyyyyyy".toList = List.replicate 7 'y' := by decide
    rw [h7, ← List.append_assoc, List.append_replicate_replicate]
  have hread : readLines (render [MSG_CANNOT_FIND_SERVER, MSG_GRAPHICS_SUPPORT_CUSTOMER,
      List.replicate 1030 'y', "b".toList]) =
      [MSG_CANNOT_FIND_SERVER, MSG_GRAPHICS_SUPPORT_CUSTOMER, List.replicate 1023 'y',
        "yyyyyyy".toList, "b".toList] := by
    rw [render_cons, readLines_line _ _ (by decide), render_cons,
      readLines_line _ _ (by decide), render_cons, hsplit,
      readLines_piece _ _ (List.length_replicate ..)
        (fun c hc => by rw [List.eq_of_mem_replicate hc]; exact ⟨hy1, hy0⟩),
      readLines_line _ _ (by decide), readLines_render ["b".toList] (by decide)]
  have e := filterLoop_window (fun _ => true) (fun _ => rfl) [] []
    ["yyyyyyy".toList, "b".toList] MSG_CANNOT_FIND_SERVER (List.replicate 1023 'y')
    (Or.inl rfl) (by simp) (by simp)
  have e1 : (filterLoop (fun _ => true)
      [MSG_CANNOT_FIND_SERVER, MSG_GRAPHICS_SUPPORT_CUSTOMER, List.replicate 1023 'y',
        "yyyyyyy".toList, "b".toList] initFlags 0).emitted =
      ["yyyyyyy".toList, "b".toList] := e.1
  have e2 : (filterLoop (fun _ => true)
      [MSG_CANNOT_FIND_SERVER, MSG_GRAPHICS_SUPPORT_CUSTOMER, List.replicate 1023 'y',
        "yyyyyyy".toList, "b".toList] initFlags 0).stop = .eof := e.2
  refine ⟨hread, ?_, ?_, ?_⟩
  · rw [filterStream_eq_filterLoop, hread, e1]
  · rw [filterStream_eq_filterLoop, hread, e1]
    decide
  · have hr : resolve linux "cc".toList = some "/usr/bin/cc".toList := by decide
    simp only [main, parent, quietWorld, hr, filterStream_eq_filterLoop, hread, e1, e2]
    rfl

/-- C2 fails on the code.  The pipe content is a line of 1023 characters `x`
followed by the text of `MSG_NO_SUCH_FEATURE` (a line that contains the
trigger string as a proper substring and equals no trigger string), then the
line `after`.  `fgets` delivers the 1023 characters and the trigger text as
two lines; the second opens the window: `main` emits the 1023 characters only,
where the claim says the two input lines are emitted unchanged. -/
theorem long_line_piece_triggers :
    (∀ l ∈ [List.replicate 1023 'x' ++ MSG_NO_SUCH_FEATURE, "after".toList],
      l ≠ MSG_CANNOT_FIND_SERVER ∧ l ≠ MSG_NO_SUCH_FEATURE) ∧
    readLines (render [List.replicate 1023 'x' ++ MSG_NO_SUCH_FEATURE, "after".toList]) =
      [List.replicate 1023 'x', MSG_NO_SUCH_FEATURE, "after".toList] ∧
    (filterStream (fun _ => true)
      (render [List.replicate 1023 'x' ++ MSG_NO_SUCH_FEATURE, "after".toList])
      initFlags 0).emitted = [List.replicate 1023 'x'] ∧
    (filterStream (fun _ => true)
      (render [List.replicate 1023 'x' ++ MSG_NO_SUCH_FEATURE, "after".toList])
      initFlags 0).emitted ≠
      [List.replicate 1023 'x' ++ MSG_NO_SUCH_FEATURE, "after".toList] ∧
    (main linux { quietWorld with
      pipeData := render [List.replicate 1023 'x' ++ MSG_NO_SUCH_FEATURE,
        "after".toList] }).trace =
      [.access "/usr/bin/cc".toList, .pipe, .fork, .emit (List.replicate 1023 'x'),
        .waitpid] := by
  have hx1 : ('x' : Char) ≠ '\n' := by decide
  have hx0 : ('x' : Char) ≠ '\x00' := by decide
  have hpiece : ∀ l ∈ [List.replicate 1023 'x'],
      l ≠ MSG_CANNOT_FIND_SERVER ∧ l ≠ MSG_NO_SUCH_FEATURE := by
    intro l hl
    rw [List.mem_singleton.1 hl]
    exact ⟨ne_of_head_ne _ _ 'x' 'C' rfl rfl (by decide),
      ne_of_head_ne _ _ 'x' 'N' rfl rfl (by decide)⟩
  have hprem : ∀ l ∈ [List.replicate 1023 'x' ++ MSG_NO_SUCH_FEATURE, "after".toList],
      l ≠ MSG_CANNOT_FIND_SERVER ∧ l ≠ MSG_NO_SUCH_FEATURE := by
    intro l hl
    rcases List.mem_cons.1 hl with rfl | hl
    · exact ⟨ne_of_head_ne _ _ 'x' 'C' rfl rfl (by decide),
        ne_of_head_ne _ _ 'x' 'N' rfl rfl (by decide)⟩
    · rw [List.mem_singleton.1 hl]
      decide
  have hread : readLines
      (render [List.replicate 1023 'x' ++ MSG_NO_SUCH_FEATURE, "after".toList]) =
      [List.replicate 1023 'x', MSG_NO_SUCH_FEATURE, "after".toList] := by
    rw [render_cons, List.append_assoc,
      readLines_piece _ _ (List.length_replicate ..)
        (fun c hc => by rw [List.eq_of_mem_replicate hc]; exact ⟨hx1, hx0⟩),
      readLines_line _ _ (by decide), readLines_render ["after".toList] (by decide)]
  have e := filterLoop_window_unclosed (fun _ => true) (fun _ => rfl)
    [List.replicate 1023 'x'] ["after".toList] MSG_NO_SUCH_FEATURE (Or.inr rfl) hpiece
    (by decide)
  have e1 : (filterLoop (fun _ => true)
      [List.replicate 1023 'x', MSG_NO_SUCH_FEATURE, "after".toList] initFlags 0).emitted =
      [List.replicate 1023 'x'] := e.1
  have e2 : (filterLoop (fun _ => true)
      [List.replicate 1023 'x', MSG_NO_SUCH_FEATURE, "after".toList] initFlags 0).stop =
      .eof := e.2
  refine ⟨hprem, hread, ?_, ?_, ?_⟩
  · rw [filterStream_eq_filterLoop, hread, e1]
  · rw [filterStream_eq_filterLoop, hread, e1]
    intro h
    have := congrArg List.length h
    simp only [List.length_cons, List.length_nil] at this
    omega
  · have hr : resolve linux "cc".toList = some "/usr/bin/cc".toList := by decide
    simp only [main, parent, quietWorld, hr, filterStream_eq_filterLoop, hread, e1, e2]
    rfl

/-- C4 fails on the code.  The pipe content is the line `a`, a trigger line,
and a rest of three lines none of which equals the closing marker: 1023
characters `x` followed by the text of the marker, `z`, `after`.  `fgets`
delivers the marker text as a line of its own, which closes the window: after
`z` is consumed, `after` is written, so `main` emits `a` and `after` where the
claim says `a` alone. -/
theorem long_line_piece_closes_window :
    (∀ l ∈ [List.replicate 1023 'x' ++ MSG_GRAPHICS_SUPPORT_CUSTOMER, "z".toList,
        "after".toList], l ≠ MSG_GRAPHICS_SUPPORT_CUSTOMER) ∧
    readLines (render (["a".toList] ++ [MSG_CANNOT_FIND_SERVER] ++
        [List.replicate 1023 'x' ++ MSG_GRAPHICS_SUPPORT_CUSTOMER, "z".toList,
          "after".toList])) =
      ["a".toList, MSG_CANNOT_FIND_SERVER, List.replicate 1023 'x',
        MSG_GRAPHICS_SUPPORT_CUSTOMER, "z".toList, "after".toList] ∧
    (filterStream (fun _ => true)
      (render (["a".toList] ++ [MSG_CANNOT_FIND_SERVER] ++
        [List.replicate 1023 'x' ++ MSG_GRAPHICS_SUPPORT_CUSTOMER, "z".toList,
          "after".toList])) initFlags 0).emitted = ["a".toList, "after".toList] ∧
    (filterStream (fun _ => true)
      (render (["a".toList] ++ [MSG_CANNOT_FIND_SERVER] ++
        [List.replicate 1023 'x' ++ MSG_GRAPHICS_SUPPORT_CUSTOMER, "z".toList,
          "after".toList])) initFlags 0).emitted ≠ ["a".toList] ∧
    (main linux { quietWorld with
      pipeData := render (["a".toList] ++ [MSG_CANNOT_FIND_SERVER] ++
        [List.replicate 1023 'x' ++ MSG_GRAPHICS_SUPPORT_CUSTOMER, "z".toList,
          "after".toList]) }).trace =
      [.access "/usr/bin/cc".toList, .pipe, .fork, .emit "a".toList, .emit "after".toList,
        .waitpid] := by
  have hx1 : ('x' : Char) ≠ '\n' := by decide
  have hx0 : ('x' : Char) ≠ '\x00' := by decide
  have hprem : ∀ l ∈ [List.replicate 1023 'x' ++ MSG_GRAPHICS_SUPPORT_CUSTOMER, "z".toList,
      "after".toList], l ≠ MSG_GRAPHICS_SUPPORT_CUSTOMER := by
    intro l hl
    rcases List.mem_cons.1 hl with rfl | hl
    · exact ne_of_head_ne _ _ 'x' 'G' rfl rfl (by decide)
    · revert l
      decide
  have hmid : ∀ l ∈ [List.replicate 1023 'x'], l ≠ MSG_GRAPHICS_SUPPORT_CUSTOMER := by
    intro l hl
    rw [List.mem_singleton.1 hl]
    exact ne_of_head_ne _ _ 'x' 'G' rfl rfl (by decide)
  have hform : ["a".toList] ++ [MSG_CANNOT_FIND_SERVER] ++
      [List.replicate 1023 'x' ++ MSG_GRAPHICS_SUPPORT_CUSTOMER, "z".toList,
        "after".toList] =
      ["a".toList, MSG_CANNOT_FIND_SERVER,
        List.replicate 1023 'x' ++ MSG_GRAPHICS_SUPPORT_CUSTOMER, "z".toList,
        "after".toList] := rfl
  have hread : readLines (render (["a".toList] ++ [MSG_CANNOT_FIND_SERVER] ++
      [List.replicate 1023 'x' ++ MSG_GRAPHICS_SUPPORT_CUSTOMER, "z".toList,
        "after".toList])) =
      ["a".toList, MSG_CANNOT_FIND_SERVER, List.replicate 1023 'x',
        MSG_GRAPHICS_SUPPORT_CUSTOMER, "z".toList, "after".toList] := by
    rw [hform, render_cons, readLines_line _ _ (by decide), render_cons,
      readLines_line _ _ (by decide), render_cons, List.append_assoc,
      readLines_piece _ _ (List.length_replicate ..)
        (fun c hc => by rw [List.eq_of_mem_replicate hc]; exact ⟨hx1, hx0⟩),
      readLines_line _ _ (by decide),
      readLines_render ["z".toList, "after".toList] (by decide)]
  have e := filterLoop_window (fun _ => true) (fun _ => rfl) ["a".toList]
    [List.replicate 1023 'x'] ["after".toList] MSG_CANNOT_FIND_SERVER "z".toList
    (Or.inl rfl) (by decide) hmid
  have e1 : (filterLoop (fun _ => true)
      ["a".toList, MSG_CANNOT_FIND_SERVER, List.replicate 1023 'x',
        MSG_GRAPHICS_SUPPORT_CUSTOMER, "z".toList, "after".toList] initFlags 0).emitted =
      ["a".toList, "after".toList] := e.1
  have e2 : (filterLoop (fun _ => true)
      ["a".toList, MSG_CANNOT_FIND_SERVER, List.replicate 1023 'x',
        MSG_GRAPHICS_SUPPORT_CUSTOMER, "z".toList, "after".toList] initFlags 0).stop =
      .eof := e.2
  refine ⟨hprem, hread, ?_, ?_, ?_⟩
  · rw [filterStream_eq_filterLoop, hread, e1]
  · rw [filterStream_eq_filterLoop, hread, e1]
    decide
  · have hr : resolve linux "cc".toList = some "/usr/bin/cc".toList := by decide
    simp only [main, parent, quietWorld, hr, filterStream_eq_filterLoop, hread, e1, e2]
    rfl

end MipsproSuppress
